import Mathlib

/-!
Verification development for the nacme ACME v2 client.

The TypeScript sources (src/helper.ts, src/http.ts, src/api.ts,
src/client.ts) are shallowly embedded below.  External collaborators
(the node `crypto` provider and the axios HTTP transport) are modelled
as parameters: a `Crypto` record of abstract byte functions and a
`Server` oracle mapping each request (given the request history) to a
response.  JavaScript values flowing through JSON are modelled by the
`Json` inductive; machine-level byte strings are `List Nat` with
explicit `< 256` bounds where they matter.
-/

namespace Nacme

/-! ## JSON values and JSON.stringify -/

inductive Json where
  | null
  | bool (b : Bool)
  | str (s : String)
  | arr (xs : List Json)
  | obj (fields : List (String × Json))

/-- Hex digit used by the \u00XX escapes of JSON.stringify. -/
def hexDigit (n : Nat) : Char :=
  (("0123456789abcdef".data).getD n '0')

/-- JSON.stringify escaping of a single character. -/
def escapeChar (c : Char) : List Char :=
  if c = '"' then ['\\', '"']
  else if c = '\\' then ['\\', '\\']
  else if c = '\n' then ['\\', 'n']
  else if c = '\r' then ['\\', 'r']
  else if c = '\t' then ['\\', 't']
  else if c.toNat = 8 then ['\\', 'b']
  else if c.toNat = 12 then ['\\', 'f']
  else if c.toNat < 32 then
    ['\\', 'u', '0', '0', hexDigit (c.toNat / 16), hexDigit (c.toNat % 16)]
  else [c]

/-- JSON.stringify escaping of a string body. -/
def escapeString (s : String) : String :=
  ⟨(s.data.map escapeChar).flatten⟩

/-- Comma-join used by JSON serialization. -/
def joinComma : List String → String
  | [] => ""
  | [x] => x
  | x :: y :: rest => x ++ "," ++ joinComma (y :: rest)

mutual

/-- JSON.stringify on the modelled value fragment (insertion order of
object fields is preserved, as in V8). -/
def Json.stringify : Json → String
  | .null => "null"
  | .bool true => "true"
  | .bool false => "false"
  | .str s => "\"" ++ escapeString s ++ "\""
  | .arr xs => "[" ++ joinComma (stringifyList xs) ++ "]"
  | .obj fs => "\x7b" ++ joinComma (stringifyFields fs) ++ "\x7d"

def stringifyList : List Json → List String
  | [] => []
  | x :: rest => Json.stringify x :: stringifyList rest

def stringifyFields : List (String × Json) → List String
  | [] => []
  | (k, v) :: rest =>
      ("\"" ++ escapeString k ++ "\":" ++ Json.stringify v) :: stringifyFields rest

end

/-- JS property access `o[k]`; absent keys behave like `undefined`,
which we fold into `null` (both are falsy and serialize nowhere we
inspect). -/
def Json.get : Json → String → Json
  | .obj fs, k =>
      match fs.find? (fun p => p.1 = k) with
      | some p => p.2
      | none => .null
  | _, _ => .null

/-- JS truthiness of a modelled JSON value. -/
def Json.truthy : Json → Bool
  | .null => false
  | .bool b => b
  | .str s => !(s == "")
  | .arr _ => true
  | .obj _ => true

/-- Whether an object carries a key at all. -/
def Json.hasKey : Json → String → Bool
  | .obj fs, k => fs.any (fun p => p.1 == k)
  | _, _ => false

/-- In-place property assignment `o[k] = v` on an object: an existing
key keeps its position, a new key is appended (V8 insertion order). -/
def setField : List (String × Json) → String → Json → List (String × Json)
  | [], k, v => [(k, v)]
  | (k', v') :: rest, k, v =>
      if k' = k then (k, v) :: rest else (k', v') :: setField rest k v

def Json.objSet : Json → String → Json → Json
  | .obj fs, k, v => .obj (setField fs k v)
  | j, _, _ => j

/-! ## Bytes, UTF-8, base64 and base64url (src/helper.ts) -/

/-- UTF-8 bytes of a string (Buffer.from(str)). -/
def utf8Bytes (s : String) : List Nat :=
  (s.data.flatMap String.utf8EncodeChar).map (fun b => b.toNat)

/-- Standard base64 alphabet. -/
def b64Alphabet : List Char :=
  "ABCDEFGHIJKLMNOPQRSTUVWXYZabcdefghijklmnopqrstuvwxyz0123456789+/".data

def b64Char (n : Nat) : Char := b64Alphabet.getD n 'A'

/-- Padded standard base64 of a byte list (Buffer.toString("base64")). -/
def base64Chunks : List Nat → List Char
  | [] => []
  | [a] => [b64Char (a / 4), b64Char (a % 4 * 16), '=', '=']
  | [a, b] => [b64Char (a / 4), b64Char (a % 4 * 16 + b / 16), b64Char (b % 16 * 4), '=']
  | a :: b :: c :: rest =>
      b64Char (a / 4) :: b64Char (a % 4 * 16 + b / 16) ::
      b64Char (b % 16 * 4 + c / 64) :: b64Char (c % 64) :: base64Chunks rest

def base64 (l : List Nat) : String := ⟨base64Chunks l⟩

/-- helper.b64escape: substitute the url-safe alphabet and strip
padding. -/
def b64escapeChars (cs : List Char) : List Char :=
  (cs.map (fun c => if c = '+' then '-' else if c = '/' then '_' else c)).filter
    (fun c => !(c == '='))

def b64escape (s : String) : String := ⟨b64escapeChars s.data⟩

/-- helper.b64encode on raw bytes. -/
def b64encodeBytes (l : List Nat) : String := b64escape (base64 l)

/-- helper.b64encode on a string (UTF-8 bytes of it). -/
def b64encodeStr (s : String) : String := b64encodeBytes (utf8Bytes s)

/-- Inverse of the url-safe alphabet. -/
def b64urlDecodeChar (c : Char) : Option Nat :=
  ("ABCDEFGHIJKLMNOPQRSTUVWXYZabcdefghijklmnopqrstuvwxyz0123456789-_".data).findIdx?
    (fun d => d == c)

/-- base64url decoding (unpadded input) to bytes. -/
def b64urlDecodeChars : List Char → Option (List Nat)
  | [] => some []
  | [_] => none
  | [a, b] => do
      let x ← b64urlDecodeChar a
      let y ← b64urlDecodeChar b
      some [x * 4 + y / 16]
  | [a, b, c] => do
      let x ← b64urlDecodeChar a
      let y ← b64urlDecodeChar b
      let z ← b64urlDecodeChar c
      some [x * 4 + y / 16, y % 16 * 16 + z / 4]
  | a :: b :: c :: d :: rest => do
      let x ← b64urlDecodeChar a
      let y ← b64urlDecodeChar b
      let z ← b64urlDecodeChar c
      let t ← b64urlDecodeChar d
      let tail ← b64urlDecodeChars rest
      some ((x * 4 + y / 16) :: (y % 16 * 16 + z / 4) :: (z % 4 * 64 + t) :: tail)

def b64urlDecodeStr (s : String) : Option (List Nat) := b64urlDecodeChars s.data

/-- helper strip used by formatResponseError: `.replace(/\n/g, "")`. -/
def stripNewlines (s : String) : String :=
  ⟨s.data.filter (fun c => !(c == '\n'))⟩

/-! ### base64url round-trip -/

/-- The character substitution performed by b64escape. -/
def escMap (c : Char) : Char :=
  if c = '+' then '-' else if c = '/' then '_' else c

theorem b64escapeChars_eq (cs : List Char) :
    b64escapeChars cs = (cs.map escMap).filter (fun c => !(c == '=')) := rfl

theorem b64escapeChars_nil : b64escapeChars [] = [] := rfl

theorem b64escapeChars_cons_keep (c : Char) (cs : List Char)
    (h : (escMap c == '=') = false) :
    b64escapeChars (c :: cs) = escMap c :: b64escapeChars cs := by
  simp [b64escapeChars_eq, List.filter, h]

theorem b64escapeChars_cons_eq (cs : List Char) :
    b64escapeChars ('=' :: cs) = b64escapeChars cs := by
  simp [b64escapeChars_eq, List.filter, escMap]

/-- The url-safe substitution of an encoded sextet decodes back to it,
and is never the padding character. -/
theorem b64urlDecodeChar_escape :
    ∀ n, n < 64 →
      b64urlDecodeChar (escMap (b64Char n)) = some n ∧
      (escMap (b64Char n) == '=') = false := by
  decide

/-- Decoding inverts url-safe encoding on byte lists. -/
theorem b64url_roundtrip (l : List Nat) (h : ∀ b ∈ l, b < 256) :
    b64urlDecodeChars (b64escapeChars (base64Chunks l)) = some l := by
  induction l using base64Chunks.induct with
  | case1 => rfl
  | case2 a =>
      have ha : a < 256 := h a (by simp)
      have h1 := b64urlDecodeChar_escape (a / 4) (by omega)
      have h2 := b64urlDecodeChar_escape (a % 4 * 16) (by omega)
      rw [show base64Chunks [a] = [b64Char (a / 4), b64Char (a % 4 * 16), '=', '='] from rfl,
        b64escapeChars_cons_keep _ _ h1.2, b64escapeChars_cons_keep _ _ h2.2,
        b64escapeChars_cons_eq, b64escapeChars_cons_eq, b64escapeChars_nil]
      simp [b64urlDecodeChars, h1.1, h2.1]
      omega
  | case3 a b =>
      have ha : a < 256 := h a (by simp)
      have hb : b < 256 := h b (by simp)
      have h1 := b64urlDecodeChar_escape (a / 4) (by omega)
      have h2 := b64urlDecodeChar_escape (a % 4 * 16 + b / 16) (by omega)
      have h3 := b64urlDecodeChar_escape (b % 16 * 4) (by omega)
      rw [show base64Chunks [a, b]
            = [b64Char (a / 4), b64Char (a % 4 * 16 + b / 16), b64Char (b % 16 * 4), '='] from rfl,
        b64escapeChars_cons_keep _ _ h1.2, b64escapeChars_cons_keep _ _ h2.2,
        b64escapeChars_cons_keep _ _ h3.2, b64escapeChars_cons_eq, b64escapeChars_nil]
      simp [b64urlDecodeChars, h1.1, h2.1, h3.1]
      constructor
      · omega
      · omega
  | case4 a b c rest ih =>
      have ha : a < 256 := h a (by simp)
      have hb : b < 256 := h b (by simp)
      have hc : c < 256 := h c (by simp)
      have hrest : ∀ x ∈ rest, x < 256 := by
        intro x hx
        exact h x (by simp [hx])
      have h1 := b64urlDecodeChar_escape (a / 4) (by omega)
      have h2 := b64urlDecodeChar_escape (a % 4 * 16 + b / 16) (by omega)
      have h3 := b64urlDecodeChar_escape (b % 16 * 4 + c / 64) (by omega)
      have h4 := b64urlDecodeChar_escape (c % 64) (by omega)
      rw [show base64Chunks (a :: b :: c :: rest)
            = b64Char (a / 4) :: b64Char (a % 4 * 16 + b / 16) ::
              b64Char (b % 16 * 4 + c / 64) :: b64Char (c % 64) :: base64Chunks rest from rfl,
        b64escapeChars_cons_keep _ _ h1.2, b64escapeChars_cons_keep _ _ h2.2,
        b64escapeChars_cons_keep _ _ h3.2, b64escapeChars_cons_keep _ _ h4.2]
      simp [b64urlDecodeChars, h1.1, h2.1, h3.1, h4.1, ih hrest]
      refine ⟨by omega, by omega, by omega⟩

/-- Every UTF-8 byte is below 256. -/
theorem utf8Bytes_lt (s : String) : ∀ b ∈ utf8Bytes s, b < 256 := by
  intro b hb
  simp only [utf8Bytes, List.mem_map] at hb
  obtain ⟨x, _, rfl⟩ := hb
  exact x.toNat_lt

/-- base64url-decoding the helper's encoding of a string yields its
UTF-8 bytes. -/
theorem b64urlDecodeStr_b64encodeStr (s : String) :
    b64urlDecodeStr (b64encodeStr s) = some (utf8Bytes s) := by
  simpa [b64urlDecodeStr, b64encodeStr, b64encodeBytes, b64escape, base64] using
    b64url_roundtrip (utf8Bytes s) (utf8Bytes_lt s)

/-! ## Effect model

Requests and responses, a server oracle that may consult the request
history, and a state/error monad whose state is the request log.  The
node `crypto`/`forge` primitive provider is a record of abstract byte
functions, since it is an external collaborator of the sources. -/

structure SignedBody where
  payload : String
  prot : String
  signature : String
deriving DecidableEq

structure HttpRequest where
  url : String
  method : String
  body : Option SignedBody
deriving DecidableEq

structure HttpResponse where
  status : Nat
  headers : List (String × String)
  data : Json

/-- The transport oracle: given the history of exchanges (newest
first) and a request, produce the response. -/
abbrev Server := List (HttpRequest × HttpResponse) → HttpRequest → HttpResponse

/-- The world state: the log of exchanges, newest first. -/
structure World where
  log : List (HttpRequest × HttpResponse)

inductive JsErr where
  | error (msg : String)
  | typeError
deriving DecidableEq

/-- Effectful computations: JS promise chains with a possible rejection
and the growing request log. -/
def M (α : Type) : Type := World → Except JsErr α × World

def M.pure (a : α) : M α := fun w => (.ok a, w)

def M.bind (x : M α) (f : α → M β) : M β := fun w =>
  match x w with
  | (.ok a, w') => f a w'
  | (.error e, w') => (.error e, w')

instance : Monad M where
  pure := M.pure
  bind := M.bind

def M.throw (e : JsErr) : M α := fun w => (.error e, w)

theorem M.bind_run (x : M α) (f : α → M β) (w : World) :
    (x >>= f) w = match x w with
      | (.ok a, w') => f a w'
      | (.error e, w') => (.error e, w') := rfl

theorem M.pure_run (a : α) (w : World) : (Pure.pure a : M α) w = (.ok a, w) := rfl

theorem M.throw_run (e : JsErr) (w : World) : (M.throw e : M α) w = (.error e, w) := rfl

/-- The external crypto provider (node crypto / forge): public exponent
and modulus extraction, RSA-SHA256 signing, SHA-256. -/
structure Crypto where
  publicExponent : String → List Nat
  modulus : String → List Nat
  signRS256 : String → String → List Nat
  sha256 : List Nat → List Nat

/-- JS truthiness of an optional string (`undefined` and `""` are
falsy). -/
def truthyStr : Option String → Bool
  | some s => !(s == "")
  | none => false

/-- JS String.prototype.toLowerCase on the modelled method strings. -/
def jsToLower (s : String) : String := ⟨s.data.map Char.toLower⟩

/-! ## HttpClient (src/http.ts) -/

structure Jwk where
  e : String
  kty : String
  n : String
deriving DecidableEq

/-- The JWK as a JS object literal: keys in insertion order e, kty, n
(HttpClient.getJwk). -/
def jwkJson (j : Jwk) : Json :=
  .obj [("e", .str j.e), ("kty", .str j.kty), ("n", .str j.n)]

/-- The JWK value HttpClient.getJwk derives from an account key. -/
def derivedJwk (c : Crypto) (key : String) : Jwk :=
  ⟨b64encodeBytes (c.publicExponent key), "RSA", b64encodeBytes (c.modulus key)⟩

/-- Mutable fields of an HttpClient instance. -/
structure HttpState where
  directoryUrl : String
  accountKey : String
  directory : Option Json
  jwk : Option Jwk

/-- HttpClient.request: dispatch through axios with
validateStatus: undefined (every status resolves), logging the
exchange. -/
def httpRequest (server : Server) (url method : String) (body : Option SignedBody) :
    M HttpResponse := fun w =>
  let req : HttpRequest := ⟨url, method, body⟩
  let resp := server w.log req
  (.ok resp, ⟨(req, resp) :: w.log⟩)

/-- HttpClient.getDirectory: lazy fetch, cached for the lifetime. -/
def getDirectory (server : Server) (hs : HttpState) : M HttpState :=
  match hs.directory with
  | some _ => M.pure hs
  | none => do
      let resp ← httpRequest server hs.directoryUrl "get" none
      M.pure { hs with directory := some resp.data }

/-- HttpClient.getResourceUrl: directory lookup, throwing on a falsy
entry.  A `none` resource models the JS `null` resource name used by
apiRequest when an explicit URL is given. -/
def getResourceUrl (server : Server) (hs : HttpState) (resource : Option String) :
    M (Json × HttpState) := do
  let hs ← getDirectory server hs
  let entry :=
    match resource with
    | some r => (hs.directory.getD .null).get r
    | none => Json.null
  if entry.truthy then
    M.pure (entry, hs)
  else
    M.throw (.error ("Could not resolve URL for API resource: \"" ++
      (match resource with | some r => r | none => "null") ++ "\""))

/-- HttpClient.getJwk: derived once from the account key, cached. -/
def getJwk (c : Crypto) (hs : HttpState) : Jwk × HttpState :=
  match hs.jwk with
  | some j => (j, hs)
  | none =>
      let j := derivedJwk c hs.accountKey
      (j, { hs with jwk := some j })

/-- HttpClient.getNonce: HEAD to the newNonce resource; a missing or
empty Replay-Nonce header is an error. -/
def getNonce (server : Server) (hs : HttpState) : M (String × HttpState) := do
  let (urlJ, hs) ← getResourceUrl server hs (some "newNonce")
  match urlJ with
  | .str url => do
      let resp ← httpRequest server url "head" none
      let n := ((resp.headers.find? (fun p => p.1 = "replay-nonce")).map (fun p => p.2)).getD ""
      if n = "" then
        M.throw (.error "Failed to get nonce from ACME provider")
      else
        M.pure (n, hs)
  | _ => M.throw .typeError

/-- The JWS protected header object built by createSignedBody: url and
alg first, then the nonce when truthy, then exactly one of kid
(when truthy) or jwk. -/
def jwsHeader (url : String) (nonce kid : Option String) (jwk : Jwk) : Json :=
  .obj ([("url", .str url), ("alg", .str "RS256")]
    ++ (if truthyStr nonce then [("nonce", .str (nonce.getD ""))] else [])
    ++ (if truthyStr kid then [("kid", .str (kid.getD ""))] else [("jwk", jwkJson jwk)]))

/-- HttpClient.createSignedBody: flattened JWS with RS256 signature
over protected || "." || payload.  getJwk runs (and caches) only on
the jwk branch, as in the source. -/
def createSignedBody (c : Crypto) (hs : HttpState) (url : String) (payload : Json)
    (nonce kid : Option String) : SignedBody × HttpState :=
  let (jwk, hs) := if truthyStr kid then (⟨"", "", ""⟩, hs) else getJwk c hs
  let hdr := jwsHeader url nonce kid jwk
  let payl := b64encodeStr payload.stringify
  let prot := b64encodeStr hdr.stringify
  let sig := b64escape (base64 (c.signRS256 hs.accountKey (prot ++ "." ++ payl)))
  (⟨payl, prot, sig⟩, hs)

/-- The signed body as the JS object literal posted as the request
body (field insertion order payload, protected, signature). -/
def sbJson (b : SignedBody) : Json :=
  .obj [("payload", .str b.payload), ("protected", .str b.prot),
        ("signature", .str b.signature)]

/-- HttpClient.signedRequest: fetch a fresh nonce, build the signed
body, send it. -/
def signedRequest (server : Server) (c : Crypto) (hs : HttpState) (url method : String)
    (payload : Json) (kid : Option String) : M (HttpResponse × HttpState) := do
  let (nonce, hs) ← getNonce server hs
  let (body, hs) := createSignedBody c hs url payload (some nonce) kid
  let resp ← httpRequest server url method (some body)
  M.pure (resp, hs)

/-! ## AcmeApi (src/api.ts) and helper.formatResponseError -/

/-- helper.formatResponseError: fallback chain over the response data,
newlines stripped; `none` models the JS TypeError raised by
`.replace` when the selected value is not a string. -/
def formatResponseError (data : Json) : Option String :=
  let result : Json :=
    if (data.get "error").truthy then
      if ((data.get "error").get "detail").truthy then (data.get "error").get "detail"
      else data.get "error"
    else
      if (data.get "detail").truthy then data.get "detail"
      else .str (Json.stringify data)
  match result with
  | .str s => some (stripNewlines s)
  | _ => none

structure ApiState where
  http : HttpState
  accountUrl : Option String

/-- AcmeApi.getAccountUrl (pure, may throw). -/
def getAccountUrl (a : ApiState) : Except JsErr String :=
  if truthyStr a.accountUrl then .ok (a.accountUrl.getD "")
  else .error (.error "No account URL found, register account first")

/-- AcmeApi.apiRequest up to (and excluding) the status-code check:
resolve the URL, resolve the kid, dispatch plain GET or signed
request. -/
def apiRequestRaw (server : Server) (c : Crypto) (a : ApiState) (payload : Json)
    (resource : Option String) (method : String) (jwsKid : Bool) (urlArg : Option String) :
    M (HttpResponse × ApiState) := do
  let (url, hs) ←
    if truthyStr urlArg then
      M.pure (urlArg.getD "", a.http)
    else do
      let (j, hs) ← getResourceUrl server a.http resource
      match j with
      | .str u => M.pure (u, hs)
      | _ => M.throw .typeError
  let kid ←
    if jwsKid then
      match getAccountUrl a with
      | .ok u => M.pure (some u)
      | .error e => M.throw e
    else
      M.pure none
  if jsToLower method = "get" then do
    let resp ← httpRequest server url method none
    M.pure (resp, { a with http := hs })
  else do
    let (resp, hs') ← signedRequest server c hs url method payload kid
    M.pure (resp, { a with http := hs' })

/-- The status-code allow-list check ending AcmeApi.apiRequest
(`validStatusCodes.length && indexOf(resp.status) === -1`). -/
def checkStatus (codes : List Nat) (resp : HttpResponse) : M Unit :=
  if codes ≠ [] ∧ resp.status ∉ codes then
    match formatResponseError resp.data with
    | some m => M.throw (.error m)
    | none => M.throw .typeError
  else
    M.pure ()

/-- AcmeApi.apiRequest. -/
def apiRequest (server : Server) (c : Crypto) (a : ApiState) (payload : Json)
    (resource : Option String) (method : String) (codes : List Nat) (jwsKid : Bool)
    (urlArg : Option String) : M (HttpResponse × ApiState) := do
  let (resp, a') ← apiRequestRaw server c a payload resource method jwsKid urlArg
  checkStatus codes resp
  M.pure (resp, a')

/-- AcmeApi.get. -/
def apiGet (server : Server) (c : Crypto) (a : ApiState) (url : String)
    (codes : List Nat) : M (HttpResponse × ApiState) :=
  apiRequest server c a .null none "get" codes false (some url)

/-- AcmeApi.createAccount: POST newAccount with the jwk header,
allow-list [200, 201], persisting a truthy Location header as the
account URL. -/
def apiCreateAccount (server : Server) (c : Crypto) (a : ApiState) (data : Json) :
    M (HttpResponse × ApiState) := do
  let (resp, a') ← apiRequest server c a data (some "newAccount") "post" [200, 201] false none
  let loc := (resp.headers.find? (fun p => p.1 = "location")).map (fun p => p.2)
  let a'' := if truthyStr loc then { a' with accountUrl := loc } else a'
  M.pure (resp, a'')

/-- AcmeApi.updateAccount: POST to the account URL with kid,
allow-list [200, 202]. -/
def apiUpdateAccount (server : Server) (c : Crypto) (a : ApiState) (data : Json) :
    M (HttpResponse × ApiState) := do
  match getAccountUrl a with
  | .ok u => apiRequest server c a data none "post" [200, 202] true (some u)
  | .error e => M.throw e

/-- AcmeApi.updateAccountKey: POST to keyChange with kid, allow-list
[200]. -/
def apiUpdateAccountKey (server : Server) (c : Crypto) (a : ApiState) (data : Json) :
    M (HttpResponse × ApiState) :=
  apiRequest server c a data (some "keyChange") "post" [200] true none

/-! ## helper.retry / helper.retryPromise (src/helper.ts) -/

/-- One attempt of a retried function: the promise outcome together
with whether the attempt invoked its abort callback.  The world
threads through so attempts can perform HTTP. -/
abbrev AttemptFn (α : Type) := World → (Except JsErr α × Bool) × World

/-- Recursion core of helper.retryPromise, structured over the number
of retries still allowed.  With backoff.attempts = b, the source stops
on a non-aborted failure iff `b + 1 >= attempts`, i.e. iff
`attempts - (b + 1) = 0`; each retry increments b, decrementing that
difference, so recursing on `remaining := attempts - (b + 1)` is the
same control flow. -/
def retryPromiseAux (fn : AttemptFn α) : Nat → M α
  | 0 => fun w =>
      match fn w with
      | ((.ok a, _), w') => (.ok a, w')
      | ((.error e, _), w') => (.error e, w')
  | remaining + 1 => fun w =>
      match fn w with
      | ((.ok a, _), w') => (.ok a, w')
      | ((.error e, aborted), w') =>
          if aborted then (.error e, w')
          else retryPromiseAux fn remaining w'

/-- helper.retryPromise: `bAttempts` mirrors backoff.attempts, the
number of waits performed so far (0 initially, incremented by each
`backoff.duration()` call).  An attempt that throws is retried unless
it aborted or `bAttempts + 1 >= attempts`. -/
def retryPromise (fn : AttemptFn α) (attempts : Nat) (bAttempts : Nat) : M α :=
  retryPromiseAux fn (attempts - (bAttempts + 1))

/-- Backoff options of helper.retry, with its defaults
(attempts 5, min 5000 ms, max 30000 ms); min and max only shape the
waiting durations, which the model does not measure. -/
structure RetryOpts where
  attempts : Nat := 5
  min : Nat := 5000
  max : Nat := 30000
deriving DecidableEq

/-- helper.retry. -/
def retry (fn : AttemptFn α) (opts : RetryOpts) : M α :=
  retryPromise fn opts.attempts 0

/-! ## Client (src/client.ts) -/

/-- The defaultOpts literal of src/client.ts. -/
structure ClientDefaults where
  accountUrl : Option String
  backoffAttempts : Nat
  backoffMin : Nat
  backoffMax : Nat
deriving DecidableEq

def defaultOpts : ClientDefaults := ⟨none, 5, 5000, 30000⟩

/-- Mutable state of a Client: its directory URL, backoff options and
the api object (client.http is the very http object held by
client.api, so it is not duplicated here). -/
structure ClientState where
  directoryUrl : String
  backoff : RetryOpts
  api : ApiState

/- Client.createAccount and Client.updateAccount call each other; the
fuel argument makes the mutual recursion well-founded (the source can
in fact loop when createAccount receives HTTP 200 without a Location
header; no claim depends on that corner). -/
mutual

def clientCreateAccount (server : Server) (c : Crypto) :
    Nat → ClientState → Json → M (Json × ClientState)
  | 0, _, _ => M.throw .typeError
  | fuel + 1, cs, data =>
    match getAccountUrl cs.api with
    | .ok _ => clientUpdateAccount server c fuel cs data
    | .error _ => do
        let (resp, a') ← apiCreateAccount server c cs.api data
        let cs := { cs with api := a' }
        if resp.status = 200 then
          clientUpdateAccount server c fuel cs data
        else
          M.pure (resp.data, cs)

def clientUpdateAccount (server : Server) (c : Crypto) :
    Nat → ClientState → Json → M (Json × ClientState)
  | 0, _, _ => M.throw .typeError
  | fuel + 1, cs, data =>
    match getAccountUrl cs.api with
    | .error _ => clientCreateAccount server c fuel cs data
    | .ok _ => do
        let (resp, a') ← apiUpdateAccount server c cs.api data
        M.pure (resp.data, { cs with api := a' })

end

/-- Client.updateAccountKey: inner JWS built by a fresh HttpClient
bound to the new key (jwk header, keyChange URL, no nonce), wrapped as
the payload of the signed request the old client posts to keyChange;
on success the client's http and api objects are replaced (the new
api shares the new http object, so the final api carries the new
http state). -/
def clientUpdateAccountKey (server : Server) (c : Crypto) (cs : ClientState)
    (newKey : String) (data : Json) : M (Json × ClientState) := do
  match getAccountUrl cs.api with
  | .error e => M.throw e
  | .ok accountUrl => do
      let newHs : HttpState := ⟨cs.directoryUrl, newKey, none, none⟩
      let data := data.objSet "account" (.str accountUrl)
      let (oldJwk, oldHs) := getJwk c cs.api.http
      let cs := { cs with api := { cs.api with http := oldHs } }
      let data := data.objSet "oldKey" (jwkJson oldJwk)
      let (newJwk, newHs) := getJwk c newHs
      let data := data.objSet "newKey" (jwkJson newJwk)
      let (urlJ, newHs) ← getResourceUrl server newHs (some "keyChange")
      match urlJ with
      | .str url => do
          let (body, newHs) := createSignedBody c newHs url data none none
          let (resp, _) ← apiUpdateAccountKey server c cs.api (sbJson body)
          M.pure (resp.data, { cs with api := ⟨newHs, some accountUrl⟩ })
      | _ => M.throw .typeError

/-- Challenge objects as returned by the API (src/types.ts). -/
structure AcmeChallenge where
  type : String
  token : String
  status : String
  url : String
deriving DecidableEq

/-- Client.getChallengeKeyAuthorization: thumbprint =
base64url(SHA-256(JSON.stringify(jwk))); http-01 gets
token.thumbprint, dns-01 and tls-alpn-01 get
base64url(SHA-256(token.thumbprint)). -/
def getChallengeKeyAuthorization (c : Crypto) (hs : HttpState) (ch : AcmeChallenge) :
    Except JsErr (String × HttpState) :=
  let (jwk, hs) := getJwk c hs
  let thumbprint := b64escape (base64 (c.sha256 (utf8Bytes (Json.stringify (jwkJson jwk)))))
  let result := ch.token ++ "." ++ thumbprint
  if ch.type = "http-01" then
    .ok (result, hs)
  else if ch.type = "dns-01" ∨ ch.type = "tls-alpn-01" then
    .ok (b64escape (base64 (c.sha256 (utf8Bytes result))), hs)
  else
    .error (.error ("Unable to produce key authorization, unknown challenge type: " ++ ch.type))

/-- Display of a status value inside the template strings of
waitForValidStatus (JS string interpolation, approximated on the
modelled fragment). -/
def jsDisplay : Json → String
  | .null => "undefined"
  | .bool true => "true"
  | .bool false => "false"
  | .str s => s
  | j => Json.stringify j

/-- JS strict equality of a JSON value against a string literal. -/
def Json.isStr (j : Json) (s : String) : Bool :=
  match j with
  | .str t => t == s
  | _ => false

/-- The polling attempt of Client.waitForValidStatus: POST-as-GET the
item URL expecting 200, then branch on data.status: invalid aborts
and throws the formatted error, pending throws a transient error,
valid resolves. -/
def waitForValidStatusFn (server : Server) (c : Crypto) (a : ApiState) (url : String) :
    AttemptFn Json := fun w =>
  match (apiGet server c a url [200]) w with
  | (.error e, w') => ((.error e, false), w')
  | (.ok (resp, _), w') =>
      if (resp.data.get "status").isStr "invalid" then
        ((match formatResponseError resp.data with
          | some m => .error (.error m)
          | none => .error .typeError, true), w')
      else if (resp.data.get "status").isStr "pending" then
        ((.error (.error "Operation is pending"), false), w')
      else if (resp.data.get "status").isStr "valid" then
        ((.ok resp.data, false), w')
      else
        ((.error (.error ("Unexpected item status: " ++ jsDisplay (resp.data.get "status"))),
          false), w')

/-- Client.waitForValidStatus. -/
def waitForValidStatus (server : Server) (c : Crypto) (cs : ClientState)
    (itemUrl : String) : M Json :=
  if truthyStr (some itemUrl) then
    retry (waitForValidStatusFn server c cs.api itemUrl) cs.backoff
  else
    M.throw (.error "Unable to verify status of item, URL not found")

/-! ## Run extractors

Projections out of a finished run, used to state theorems without
naming intermediate values. -/

def runOk? (r : Except JsErr α × World) : Option α :=
  match r.1 with
  | .ok a => some a
  | .error _ => none

def runErr? (r : Except JsErr α × World) : Option JsErr :=
  match r.1 with
  | .ok _ => none
  | .error e => some e

def runIsOk (r : Except JsErr α × World) : Bool :=
  match r.1 with
  | .ok _ => true
  | .error _ => false

def runWorld (r : Except JsErr α × World) : World := r.2

/-- (method, url) trace of the log, newest first. -/
def trace (w : World) : List (String × String) :=
  w.log.map (fun e => (e.1.method, e.1.url))

/-- Number of logged requests satisfying a method/url pattern. -/
def countReq (method url : String) (w : World) : Nat :=
  (w.log.filter (fun e => e.1.method == method && e.1.url == url)).length

/-- The most recent request. -/
def lastReq (w : World) : Option HttpRequest := w.log.head?.map (fun e => e.1)

/-- The signed body of the most recent request, if any. -/
def lastBody (w : World) : Option SignedBody := (lastReq w).bind (fun r => r.body)

/-- The Replay-Nonce header of the most recent HEAD exchange. -/
def headNonce (w : World) : Option String :=
  (w.log.find? (fun e => e.1.method == "head")).bind
    (fun e => (e.2.headers.find? (fun p => p.1 = "replay-nonce")).map (fun p => p.2))

/-- Whether a signed body's signature is the RS256 signature with the
given key over protected || "." || payload. -/
def signedWith (c : Crypto) (key : String) (b : SignedBody) : Bool :=
  b.signature == b64escape (base64 (c.signRS256 key (b.prot ++ "." ++ b.payload)))

/-! ## Object-assignment and header lemmas -/

theorem get_setField_self (fs : List (String × Json)) (k : String) (v : Json) :
    (Json.obj (setField fs k v)).get k = v := by
  induction fs with
  | nil => simp [setField, Json.get, List.find?]
  | cons p rest ih =>
      by_cases h : p.1 = k
      · simp [setField, h, Json.get, List.find?]
      · simp only [setField, if_neg h]
        simpa [Json.get, List.find?, h] using ih

theorem get_setField_ne (fs : List (String × Json)) (k k' : String) (v : Json)
    (h : k' ≠ k) : (Json.obj (setField fs k' v)).get k = (Json.obj fs).get k := by
  induction fs with
  | nil => simp [setField, Json.get, List.find?, h]
  | cons p rest ih =>
      by_cases hp : p.1 = k'
      · simp [setField, hp, Json.get, List.find?, h, hp ▸ h]
      · simp only [setField, if_neg hp]
        by_cases hk : p.1 = k
        · simp [Json.get, List.find?, hk]
        · simpa [Json.get, List.find?, hk] using ih

theorem jwsHeader_get_url (url : String) (nonce kid : Option String) (jwk : Jwk) :
    (jwsHeader url nonce kid jwk).get "url" = .str url := by
  by_cases hn : truthyStr nonce = true <;> by_cases hk : truthyStr kid = true <;>
    simp [jwsHeader, Json.get, List.find?, hn, hk]

theorem jwsHeader_get_alg (url : String) (nonce kid : Option String) (jwk : Jwk) :
    (jwsHeader url nonce kid jwk).get "alg" = .str "RS256" := by
  by_cases hn : truthyStr nonce = true <;> by_cases hk : truthyStr kid = true <;>
    simp [jwsHeader, Json.get, List.find?, hn, hk]

theorem jwsHeader_get_nonce (url : String) (n : String) (kid : Option String) (jwk : Jwk) :
    truthyStr (some n) = true →
    (jwsHeader url (some n) kid jwk).get "nonce" = .str n := by
  intro hn
  by_cases hk : truthyStr kid = true <;>
    simp [jwsHeader, Json.get, List.find?, hn, hk]

theorem jwsHeader_hasKey_nonce_none (url : String) (kid : Option String) (jwk : Jwk) :
    (jwsHeader url none kid jwk).hasKey "nonce" = false := by
  by_cases hk : truthyStr kid = true
  · simp [jwsHeader, Json.hasKey, hk, show truthyStr none = false from rfl]
  · simp [jwsHeader, Json.hasKey, eq_false_of_ne_true hk,
      show truthyStr none = false from rfl]

theorem jwsHeader_xor (url : String) (nonce kid : Option String) (jwk : Jwk) :
    (jwsHeader url nonce kid jwk).hasKey "jwk" = !(jwsHeader url nonce kid jwk).hasKey "kid" := by
  by_cases hn : truthyStr nonce = true <;> by_cases hk : truthyStr kid = true <;>
    simp [jwsHeader, Json.hasKey, hn, hk]

theorem jwsHeader_get_jwk_nokid (url : String) (nonce : Option String) (jwk : Jwk) :
    (jwsHeader url nonce none jwk).get "jwk" = jwkJson jwk := by
  by_cases hn : truthyStr nonce = true
  · simp [jwsHeader, Json.get, List.find?, hn, show truthyStr none = false from rfl]
  · simp [jwsHeader, Json.get, List.find?, eq_false_of_ne_true hn,
      show truthyStr none = false from rfl]

theorem jwsHeader_hasKey_kid_none (url : String) (nonce : Option String) (jwk : Jwk) :
    (jwsHeader url nonce none jwk).hasKey "kid" = false := by
  by_cases hn : truthyStr nonce = true
  · simp [jwsHeader, Json.hasKey, hn, show truthyStr none = false from rfl]
  · simp [jwsHeader, Json.hasKey, eq_false_of_ne_true hn,
      show truthyStr none = false from rfl]

/-! ## Test fixtures for witnesses

A small executable crypto provider; the claims quantify over arbitrary
providers, witnesses instantiate it here. -/

def testCrypto : Crypto where
  publicExponent := fun _ => [1, 0, 1]
  modulus := fun k => utf8Bytes k
  signRS256 := fun k s => utf8Bytes (k ++ "|" ++ s)
  sha256 := fun l => 7 :: l.map (fun b => (b + 13) % 256)

def c1hs : HttpState := ⟨"https://d", "keyA", none, none⟩

def c1ch : AcmeChallenge := ⟨"dns-01", "tok", "pending", "https://ch"⟩

/-! ## Claim C1 -/

/-- C1, counterexample: for a dns-01 challenge,
Client.getChallengeKeyAuthorization does not return the key
authorization token || "." || base64url(SHA-256(JWK JSON)); it returns
the base64url-encoded SHA-256 hash of that string instead, so the
claim fails at this input. -/
theorem c1_counterexample :
    (getChallengeKeyAuthorization testCrypto c1hs c1ch).toOption.map (fun p => p.1) ≠
      some ("tok" ++ "." ++
        b64escape (base64 (testCrypto.sha256 (utf8Bytes
          (Json.stringify (jwkJson (getJwk testCrypto c1hs).1)))))) := by
  decide

/-- C1, amended: for a challenge of a supported type,
getChallengeKeyAuthorization computes the key authorization
token || "." || base64url(SHA-256(JSON of the JWK with keys in order
e, kty, n)); it returns that string for http-01, and returns
base64url(SHA-256(key authorization)) for dns-01 and tls-alpn-01. -/
theorem c1_amended (c : Crypto) (hs : HttpState) (ch : AcmeChallenge)
    (h : ch.type = "http-01" ∨ ch.type = "dns-01" ∨ ch.type = "tls-alpn-01") :
    getChallengeKeyAuthorization c hs ch =
      (let keyAuth := ch.token ++ "." ++
         b64escape (base64 (c.sha256 (utf8Bytes (Json.stringify (jwkJson (getJwk c hs).1)))))
       if ch.type = "http-01" then .ok (keyAuth, (getJwk c hs).2)
       else .ok (b64escape (base64 (c.sha256 (utf8Bytes keyAuth))), (getJwk c hs).2)) := by
  rcases hj : getJwk c hs with ⟨jwk, hs2⟩
  rcases h with h | h | h <;> simp [getChallengeKeyAuthorization, hj, h]

/-- C1, witness: the amended statement evaluated on a concrete dns-01
challenge. -/
theorem c1_witness :
    ((("dns-01" : String) = "http-01" ∨ ("dns-01" : String) = "dns-01" ∨
        ("dns-01" : String) = "tls-alpn-01") : Prop) ∧
    getChallengeKeyAuthorization testCrypto c1hs c1ch =
      (let keyAuth := "tok" ++ "." ++
         b64escape (base64 (testCrypto.sha256 (utf8Bytes
           (Json.stringify (jwkJson (getJwk testCrypto c1hs).1)))))
       if ("dns-01" : String) = "http-01" then .ok (keyAuth, (getJwk testCrypto c1hs).2)
       else .ok (b64escape (base64 (testCrypto.sha256 (utf8Bytes keyAuth))),
         (getJwk testCrypto c1hs).2)) :=
  ⟨Or.inr (Or.inl rfl), c1_amended testCrypto c1hs c1ch (Or.inr (Or.inl rfl))⟩

/-! ## Claim C9 -/

/-- The error-message fallback chain the claim describes:
response.data.error.detail when present (JS-truthy), otherwise
response.data.error, otherwise response.data.detail, otherwise the
JSON serialization of response.data. -/
def errorChain (data : Json) : Json :=
  if (data.get "error").truthy then
    if ((data.get "error").get "detail").truthy then (data.get "error").get "detail"
    else data.get "error"
  else
    if (data.get "detail").truthy then data.get "detail"
    else .str (Json.stringify data)

theorem formatResponseError_eq_chain (data : Json) :
    formatResponseError data =
      match errorChain data with
      | .str s => some (stripNewlines s)
      | _ => none := rfl

/-- Modelled from the claim (refinement side): a response whose status
is in a non-empty allow-list is passed through unchanged; one outside
it becomes an error whose message follows the fallback chain of
`errorChain` — amended with the newline stripping the source applies,
and with the TypeError the source raises when the selected value is
not a string. -/
def specStatusFilter (codes : List Nat)
    (r : Except JsErr (HttpResponse × ApiState) × World) :
    Except JsErr (HttpResponse × ApiState) × World :=
  match r with
  | (.ok (resp, a), w) =>
      if codes = [] ∨ resp.status ∈ codes then (.ok (resp, a), w)
      else
        (match errorChain resp.data with
         | .str s => (.error (.error (stripNewlines s)), w)
         | _ => (.error .typeError, w))
  | (.error e, w) => (.error e, w)

/-- C9, amended: every call through AcmeApi.apiRequest behaves as its
unchecked request followed by the allow-list filter: an in-list
response is returned unchanged, an out-of-list response raises an
error whose message is response.data.error.detail when truthy,
otherwise response.data.error, otherwise response.data.detail,
otherwise the JSON serialization of response.data — with newline
characters removed from the message. -/
theorem c9_amended (server : Server) (c : Crypto) (a : ApiState) (payload : Json)
    (resource : Option String) (method : String) (codes : List Nat) (jwsKid : Bool)
    (urlArg : Option String) (w0 : World) :
    (apiRequest server c a payload resource method codes jwsKid urlArg) w0
      = specStatusFilter codes
          ((apiRequestRaw server c a payload resource method jwsKid urlArg) w0) := by
  rcases hr : (apiRequestRaw server c a payload resource method jwsKid urlArg) w0 with ⟨res, w'⟩
  cases res with
  | error e =>
      simp [apiRequest, M.bind_run, hr, specStatusFilter]
  | ok pa =>
      rcases pa with ⟨resp, a'⟩
      by_cases hc : codes = [] ∨ resp.status ∈ codes
      · have hneg : ¬ (codes ≠ [] ∧ resp.status ∉ codes) := by
          rcases hc with hc | hc
          · exact fun hcontra => hcontra.1 hc
          · exact fun hcontra => hcontra.2 hc
        simp [apiRequest, M.bind_run, hr, checkStatus, hneg, specStatusFilter, hc,
          M.pure]
      · have hpos : codes ≠ [] ∧ resp.status ∉ codes := by
          rw [not_or] at hc
          exact ⟨hc.1, hc.2⟩
        cases hchain : errorChain resp.data with
        | str s =>
            simp [apiRequest, M.bind_run, hr, checkStatus, hpos, specStatusFilter, hc,
              formatResponseError_eq_chain, hchain, M.throw]
        | null =>
            simp [apiRequest, M.bind_run, hr, checkStatus, hpos, specStatusFilter, hc,
              formatResponseError_eq_chain, hchain, M.throw]
        | bool b =>
            simp [apiRequest, M.bind_run, hr, checkStatus, hpos, specStatusFilter, hc,
              formatResponseError_eq_chain, hchain, M.throw]
        | arr xs =>
            simp [apiRequest, M.bind_run, hr, checkStatus, hpos, specStatusFilter, hc,
              formatResponseError_eq_chain, hchain, M.throw]
        | obj fs =>
            simp [apiRequest, M.bind_run, hr, checkStatus, hpos, specStatusFilter, hc,
              formatResponseError_eq_chain, hchain, M.throw]

def c9srv : Server := fun _ _ =>
  ⟨400, [], .obj [("error", .obj [("detail", .str "a\nb")])]⟩

def c9api : ApiState := ⟨⟨"https://d", "k", none, none⟩, none⟩

/-- C9, counterexample: with allow-list [200] and a 400 response whose
error.detail is "a\nb", the raised error's message is "ab" (newlines
stripped by the source), not response.data.error.detail as the claim
states. -/
theorem c9_counterexample :
    runErr? ((apiGet c9srv testCrypto c9api "https://t" [200]) ⟨[]⟩)
        = some (.error "ab") ∧
    runErr? ((apiGet c9srv testCrypto c9api "https://t" [200]) ⟨[]⟩)
        ≠ some (.error "a\nb") := by
  constructor
  · decide
  · decide

/-! ## Claim C8 -/

def exceptDecEq {ε α : Type} [DecidableEq ε] [DecidableEq α] :
    DecidableEq (Except ε α)
  | .ok a, .ok b =>
      if h : a = b then .isTrue (by rw [h]) else .isFalse (by simp [h])
  | .ok _, .error _ => .isFalse (by simp)
  | .error _, .ok _ => .isFalse (by simp)
  | .error a, .error b =>
      if h : a = b then .isTrue (by rw [h]) else .isFalse (by simp [h])

instance {ε α : Type} [DecidableEq ε] [DecidableEq α] : DecidableEq (Except ε α) :=
  exceptDecEq

/-- A synthetic log entry marking one invocation of a retried
function. -/
def markerEntry : HttpRequest × HttpResponse := (⟨"", "attempt", none⟩, ⟨0, [], .null⟩)

/-- An instrumented attempt function: attempt number i (the i-th
invocation, counted by the log) produces the prescribed outcome and
abort flag, leaving one marker in the log. -/
def mkAttemptFn (outs : Nat → Except JsErr α × Bool) : AttemptFn α := fun w =>
  (outs w.log.length, ⟨markerEntry :: w.log⟩)

/-- An attempt outcome that throws without having called abort. -/
def plainErr (p : Except JsErr α × Bool) : Bool :=
  match p with
  | (.error _, false) => true
  | _ => false

theorem retryAux_mk_len (outs : Nat → Except JsErr α × Bool) :
    ∀ (r : Nat) (w : World),
      ((retryPromiseAux (mkAttemptFn outs) r) w).2.log.length ≤ w.log.length + r + 1 := by
  intro r
  induction r with
  | zero =>
      intro w
      rcases houts : outs w.log.length with ⟨res, ab⟩
      cases res <;> simp [retryPromiseAux, mkAttemptFn, houts]
  | succ r ih =>
      intro w
      rcases houts : outs w.log.length with ⟨res, ab⟩
      cases res with
      | ok a => simp [retryPromiseAux, mkAttemptFn, houts]
      | error e =>
          cases ab with
          | true => simp [retryPromiseAux, mkAttemptFn, houts]
          | false =>
              have := ih ⟨markerEntry :: w.log⟩
              simp only [retryPromiseAux, mkAttemptFn, houts, Bool.false_eq_true,
                if_false] at this ⊢
              simp only [World.mk.injEq, List.length_cons] at this ⊢
              omega

/-- Full characterization of retryPromiseAux over an instrumented
attempt function: if attempts b..j-1 throw without aborting, attempt j
is terminal (succeeds, aborts, or exhausts the remaining budget), and
the budget allows reaching j, then the run returns attempt j's outcome
having invoked the function j+1-b times. -/
theorem retryAux_mk_char (outs : Nat → Except JsErr α × Bool) :
    ∀ (r b : Nat) (w : World), w.log.length = b →
    ∀ j, b ≤ j →
    (∀ i, b ≤ i → i < j → plainErr (outs i) = true) →
    j - b ≤ r →
    ((outs j).1.isOk = true ∨ (outs j).2 = true ∨ j - b = r) →
    (retryPromiseAux (mkAttemptFn outs) r) w =
      ((outs j).1, ⟨List.replicate (j + 1 - b) markerEntry ++ w.log⟩) := by
  intro r
  induction r with
  | zero =>
      intro b w hw j hbj hplain hjr hterm
      have hj : j = b := by omega
      subst hj
      rcases houts : outs j with ⟨res, ab⟩
      cases res <;>
        simp [retryPromiseAux, mkAttemptFn, hw, houts, show j + 1 - j = 1 from by omega,
          List.replicate_succ]
  | succ r ih =>
      intro b w hw j hbj hplain hjr hterm
      by_cases hj : j = b
      · subst hj
        rcases houts : outs j with ⟨res, ab⟩
        cases res with
        | ok a =>
            simp [retryPromiseAux, mkAttemptFn, hw, houts,
              show j + 1 - j = 1 from by omega, List.replicate_succ]
        | error e =>
            have hab : ab = true := by
              rcases hterm with hterm | hterm | hterm
              · rw [houts] at hterm
                simp [Except.isOk, Except.toBool] at hterm
              · rw [houts] at hterm
                exact hterm
              · omega
            subst hab
            simp [retryPromiseAux, mkAttemptFn, hw, houts,
              show j + 1 - j = 1 from by omega, List.replicate_succ]
      · have hbj1 : b + 1 ≤ j := by omega
        have hpb : plainErr (outs b) = true := hplain b (le_refl b) (by omega)
        rcases houts : outs b with ⟨res, ab⟩
        cases res with
        | ok a => rw [houts] at hpb; simp [plainErr] at hpb
        | error e =>
            have hab : ab = false := by
              rw [houts] at hpb
              cases ab
              · rfl
              · simp [plainErr] at hpb
            subst hab
            have hrec := ih (b + 1) ⟨markerEntry :: w.log⟩ (by simp [hw]) j hbj1
              (fun i hi hij => hplain i (by omega) hij) (by omega)
              (by rcases hterm with hterm | hterm | hterm
                  · exact Or.inl hterm
                  · exact Or.inr (Or.inl hterm)
                  · exact Or.inr (Or.inr (by omega)))
            calc (retryPromiseAux (mkAttemptFn outs) (r + 1)) w
                = (retryPromiseAux (mkAttemptFn outs) r) ⟨markerEntry :: w.log⟩ := by
                  simp [retryPromiseAux, mkAttemptFn, hw, houts]
              _ = ((outs j).1, ⟨List.replicate (j + 1 - (b + 1)) markerEntry ++
                    (markerEntry :: w.log)⟩) := hrec
              _ = ((outs j).1, ⟨List.replicate (j + 1 - b) markerEntry ++ w.log⟩) := by
                  have : List.replicate (j + 1 - (b + 1)) markerEntry ++
                      (markerEntry :: w.log) =
                      List.replicate (j + 1 - b) markerEntry ++ w.log := by
                    have hn : j + 1 - b = (j + 1 - (b + 1)) + 1 := by omega
                    rw [hn, List.replicate_succ' (j + 1 - (b + 1)) markerEntry]
                    simp
                  rw [this]

/-- C8, amended: helper.retry(fn, {attempts, min, max}) invokes fn at
most max(1, attempts) times and always terminates; an attempt that
returns yields its result; an attempt that calls abort and throws
propagates that error immediately with no further attempts; if every
attempt throws without aborting, the error of the last allowed attempt
is propagated after max(1, attempts) invocations; retry's defaults and
the client's defaults are 5 attempts, min 5000 ms, max 30000 ms. -/
theorem c8_amended :
    (∀ (α : Type) (outs : Nat → Except JsErr α × Bool) (attempts mn mx : Nat),
      (runWorld ((retry (mkAttemptFn outs) ⟨attempts, mn, mx⟩) ⟨[]⟩)).log.length
        ≤ max 1 attempts) ∧
    (∀ (α : Type) (outs : Nat → Except JsErr α × Bool) (attempts mn mx j : Nat)
        (v : α) (flag : Bool),
      (∀ i, i < j → plainErr (outs i) = true) →
      outs j = (.ok v, flag) →
      j < max 1 attempts →
      (retry (mkAttemptFn outs) ⟨attempts, mn, mx⟩) ⟨[]⟩
        = (.ok v, ⟨List.replicate (j + 1) markerEntry⟩)) ∧
    (∀ (α : Type) (outs : Nat → Except JsErr α × Bool) (attempts mn mx j : Nat)
        (e : JsErr),
      (∀ i, i < j → plainErr (outs i) = true) →
      outs j = (.error e, true) →
      j < max 1 attempts →
      (retry (mkAttemptFn outs) ⟨attempts, mn, mx⟩) ⟨[]⟩
        = (.error e, ⟨List.replicate (j + 1) markerEntry⟩)) ∧
    (∀ (α : Type) (outs : Nat → Except JsErr α × Bool) (attempts mn mx : Nat),
      (∀ i, plainErr (outs i) = true) →
      (retry (mkAttemptFn outs) ⟨attempts, mn, mx⟩) ⟨[]⟩
        = ((outs (max 1 attempts - 1)).1, ⟨List.replicate (max 1 attempts) markerEntry⟩)) ∧
    ({} : RetryOpts) = ⟨5, 5000, 30000⟩ ∧
    defaultOpts = ⟨none, 5, 5000, 30000⟩ := by
  refine ⟨?_, ?_, ?_, ?_, rfl, rfl⟩
  · intro α outs attempts mn mx
    have h := retryAux_mk_len outs (attempts - (0 + 1)) ⟨[]⟩
    simp only [retry, retryPromise, runWorld, List.length_nil] at h ⊢
    omega
  · intro α outs attempts mn mx j v flag hplain houts hj
    have h := retryAux_mk_char outs (attempts - 1) 0 ⟨[]⟩ rfl j (Nat.zero_le j)
      (fun i _ hij => hplain i hij) (by omega) (by rw [houts]; exact Or.inl rfl)
    rw [retry, retryPromise]
    rw [houts] at h
    simpa using h
  · intro α outs attempts mn mx j e hplain houts hj
    have h := retryAux_mk_char outs (attempts - 1) 0 ⟨[]⟩ rfl j (Nat.zero_le j)
      (fun i _ hij => hplain i hij) (by omega) (by rw [houts]; exact Or.inr (Or.inl rfl))
    rw [retry, retryPromise]
    rw [houts] at h
    simpa using h
  · intro α outs attempts mn mx hplain
    have h := retryAux_mk_char outs (attempts - 1) 0 ⟨[]⟩ rfl (max 1 attempts - 1)
      (Nat.zero_le _) (fun i _ _ => hplain i) (by omega)
      (Or.inr (Or.inr (by omega)))
    rw [retry, retryPromise]
    simpa [show max 1 attempts - 1 + 1 = max 1 attempts from by omega] using h

def c8failOuts : Nat → Except JsErr Nat × Bool := fun _ => (.error (.error "boom"), false)

/-- C8, counterexample: with attempts = 0 the function is still
invoked once, so "fn is invoked at most `attempts` times" fails at
attempts = 0. -/
theorem c8_counterexample :
    (runWorld ((retry (mkAttemptFn c8failOuts) ⟨0, 5000, 30000⟩) ⟨[]⟩)).log.length = 1 ∧
    ¬ ((runWorld ((retry (mkAttemptFn c8failOuts) ⟨0, 5000, 30000⟩) ⟨[]⟩)).log.length
        ≤ 0) := by
  constructor
  · decide
  · decide

def c8outs : Nat → Except JsErr Nat × Bool := fun i =>
  if i < 2 then (.error (.error "transient"), false) else (.ok 42, false)

/-- C8, witness: two transient failures then a success, with the
default 5 attempts: the run returns the success after exactly three
invocations. -/
theorem c8_witness :
    plainErr (c8outs 0) = true ∧ plainErr (c8outs 1) = true ∧
    c8outs 2 = (.ok 42, false) ∧ 2 < max 1 5 ∧
    (retry (mkAttemptFn c8outs) ⟨5, 5000, 30000⟩) ⟨[]⟩
      = (.ok 42, ⟨List.replicate 3 markerEntry⟩) :=
  ⟨by decide, by decide, by decide, by decide,
    c8_amended.2.1 Nat c8outs 5 5000 30000 2 42 false
      (by decide) (by decide) (by decide)⟩

/-! ## Claims C2 and C3 -/

theorem countReq_cons (m u : String) (e : HttpRequest × HttpResponse)
    (log : List (HttpRequest × HttpResponse)) :
    countReq m u ⟨e :: log⟩ =
      countReq m u ⟨log⟩ + (if (e.1.method == m && e.1.url == u) = true then 1 else 0) := by
  by_cases h : (e.1.method == m && e.1.url == u) = true <;>
    simp [countReq, List.filter, h]

theorem countReq_getDirectory (server : Server) (hs : HttpState) (u : String) (w : World) :
    countReq "post" u (((getDirectory server hs) w).2) = countReq "post" u w := by
  cases hd : hs.directory with
  | some d => simp [getDirectory, hd, M.pure]
  | none =>
      simp [getDirectory, hd, M.bind_run, httpRequest, M.pure, countReq_cons]

theorem countReq_getResourceUrl (server : Server) (hs : HttpState)
    (resource : Option String) (u : String) (w : World) :
    countReq "post" u (((getResourceUrl server hs resource) w).2) = countReq "post" u w := by
  rcases hd : (getDirectory server hs) w with ⟨res, w1⟩
  have hcount : countReq "post" u w1 = countReq "post" u w := by
    have := countReq_getDirectory server hs u w
    rw [hd] at this
    exact this
  cases res with
  | error e => simp [getResourceUrl, M.bind_run, hd, hcount]
  | ok hs1 =>
      by_cases ht : (match resource with
          | some r => (hs1.directory.getD .null).get r
          | none => Json.null).truthy = true <;>
        simp [getResourceUrl, M.bind_run, hd, ht, M.pure, M.throw, hcount]

theorem countReq_getNonce (server : Server) (hs : HttpState) (u : String) (w : World) :
    countReq "post" u (((getNonce server hs) w).2) = countReq "post" u w := by
  rcases hr : (getResourceUrl server hs (some "newNonce")) w with ⟨res, w1⟩
  have hcount : countReq "post" u w1 = countReq "post" u w := by
    have := countReq_getResourceUrl server hs (some "newNonce") u w
    rw [hr] at this
    exact this
  cases res with
  | error e => simp [getNonce, M.bind_run, hr, hcount]
  | ok p =>
      rcases p with ⟨urlJ, hs1⟩
      cases urlJ with
      | str nu =>
          by_cases hn : (((server w1.log ⟨nu, "head", none⟩).headers.find?
              (fun p => p.1 = "replay-nonce")).map (fun p => p.2)).getD "" = "" <;>
            simp [getNonce, M.bind_run, hr, httpRequest, hn, M.pure, M.throw,
              countReq_cons, hcount]
      | null => simp [getNonce, M.bind_run, hr, M.throw, hcount]
      | bool b => simp [getNonce, M.bind_run, hr, M.throw, hcount]
      | arr xs => simp [getNonce, M.bind_run, hr, M.throw, hcount]
      | obj fs => simp [getNonce, M.bind_run, hr, M.throw, hcount]

/-- C2, amended: the transport performs no badNonce retry at all — a
signed POST sends the request exactly once when the nonce fetch
succeeds and zero times when it fails, for every server behavior
(including a 400 badNonce response, which is returned as-is and left
to the API layer's allow-list check to surface on first occurrence). -/
theorem c2_amended (server : Server) (c : Crypto) (hs : HttpState) (url : String)
    (payload : Json) (kid : Option String) (w0 : World) :
    countReq "post" url (runWorld ((signedRequest server c hs url "post" payload kid) w0))
      = countReq "post" url w0 +
        (if runIsOk ((signedRequest server c hs url "post" payload kid) w0) = true
         then 1 else 0) := by
  rcases hg : (getNonce server hs) w0 with ⟨res, w1⟩
  have hcount : countReq "post" url w1 = countReq "post" url w0 := by
    have := countReq_getNonce server hs url w0
    rw [hg] at this
    exact this
  cases res with
  | error e =>
      simp [signedRequest, M.bind_run, hg, runWorld, runIsOk, hcount]
  | ok p =>
      rcases p with ⟨n, hs1⟩
      rcases hb : createSignedBody c hs1 url payload (some n) kid with ⟨body, hs2⟩
      simp [signedRequest, M.bind_run, hg, hb, httpRequest, M.pure, runWorld, runIsOk,
        countReq_cons, hcount]

def c2srv : Server := fun hist req =>
  if req.method == "get" then ⟨200, [], .obj [("newNonce", .str "https://N")]⟩
  else if req.method == "head" then ⟨200, [("replay-nonce", "n1")], .null⟩
  else if (hist.filter (fun e => e.1.method == "post")).length == 0 then
    ⟨400, [("replay-nonce", "n2")],
      .obj [("type", .str "urn:ietf:params:acme:error:badNonce"),
            ("detail", .str "bad nonce")]⟩
  else ⟨200, [], .obj [("status", .str "valid")]⟩

def c2api : ApiState := ⟨⟨"https://D", "k", none, none⟩, some "https://U"⟩

/-- C2, counterexample: a server that answers the first POST with
HTTP 400 badNonce (fresh Replay-Nonce included) and would accept any
retried POST.  The claim predicts a single retry and overall success
(two POSTs); the code sends exactly one POST and surfaces the 400 as
a hard failure immediately. -/
theorem c2_counterexample :
    countReq "post" "https://U"
        (runWorld ((apiUpdateAccount c2srv testCrypto c2api (Json.obj [])) ⟨[]⟩)) = 1 ∧
    runErr? ((apiUpdateAccount c2srv testCrypto c2api (Json.obj [])) ⟨[]⟩)
        = some (.error "bad nonce") ∧
    ¬ (runIsOk ((apiUpdateAccount c2srv testCrypto c2api (Json.obj [])) ⟨[]⟩) = true ∧
       countReq "post" "https://U"
         (runWorld ((apiUpdateAccount c2srv testCrypto c2api (Json.obj [])) ⟨[]⟩)) = 2) := by
  refine ⟨by decide, by decide, ?_⟩
  intro hcontra
  exact absurd hcontra.1 (by decide)

/-- C3, amended: there is no nonce pool — every signed request issues
its own HEAD to the newNonce URL immediately before the send, so a
successful signed request (with the directory already cached) adds
exactly the exchange trace [send, nonce-HEAD] to the log; Replay-Nonce
headers of other responses are never stored (HttpClient keeps no nonce
state). -/
theorem c3_amended (server : Server) (c : Crypto) (hs : HttpState) (dir : Json)
    (nu url method : String) (payload : Json) (kid : Option String) (w0 : World)
    (hdir : hs.directory = some dir) (hnu : dir.get "newNonce" = .str nu)
    (hnu' : nu ≠ "")
    (hok : runIsOk ((signedRequest server c hs url method payload kid) w0) = true) :
    trace (runWorld ((signedRequest server c hs url method payload kid) w0))
      = (method, url) :: ("head", nu) :: trace w0 := by
  have htruthy : (Json.str nu).truthy = true := by
    simp [Json.truthy, hnu']
  by_cases hempty : (((server w0.log ⟨nu, "head", none⟩).headers.find?
      (fun p => p.1 = "replay-nonce")).map (fun p => p.2)).getD "" = ""
  · exfalso
    revert hok
    simp [signedRequest, M.bind_run, getNonce, getResourceUrl, getDirectory, hdir,
      M.pure, hnu, htruthy, httpRequest, hempty, M.throw, runIsOk]
  · rcases hb : createSignedBody c hs url payload
        (some ((((server w0.log ⟨nu, "head", none⟩).headers.find?
          (fun p => p.1 = "replay-nonce")).map (fun p => p.2)).getD "")) kid
      with ⟨body, hs2⟩
    simp [signedRequest, M.bind_run, getNonce, getResourceUrl, getDirectory, hdir,
      M.pure, hnu, htruthy, httpRequest, hempty, hb, trace, runWorld]

def c3hs : HttpState := ⟨"https://D", "k", none, none⟩

def c3srv : Server := fun _ req =>
  if req.method == "get" then
    ⟨200, [("replay-nonce", "g1")], .obj [("newNonce", .str "https://N")]⟩
  else if req.method == "head" then ⟨200, [("replay-nonce", "h1")], .null⟩
  else ⟨200, [("replay-nonce", "p1")], .obj [("status", .str "ok")]⟩

def c3run : M Unit := do
  let (_, hs) ← signedRequest c3srv testCrypto c3hs "https://T" "post" .null none
  let _ ← signedRequest c3srv testCrypto hs "https://T" "post" .null none
  M.pure ()

/-- C3, counterexample: every response of this server carries a
Replay-Nonce header, so under the claimed pool semantics the first
signed request's responses would replenish the pool and the second
signed request would consume from it without fetching (at most one
HEAD in total).  The code issues one HEAD per signed request: two
HEADs. -/
theorem c3_counterexample :
    countReq "head" "https://N" (runWorld (c3run ⟨[]⟩)) = 2 ∧
    ¬ (countReq "head" "https://N" (runWorld (c3run ⟨[]⟩)) ≤ 1) := by
  constructor
  · decide
  · decide

def c3dir : Json := .obj [("newNonce", .str "https://N")]

def c3cachedHs : HttpState := ⟨"https://D", "k", some c3dir, none⟩

/-- C3, witness: the amended per-request trace evaluated on a concrete
signed request with a cached directory. -/
theorem c3_witness :
    c3cachedHs.directory = some c3dir ∧
    c3dir.get "newNonce" = Json.str "https://N" ∧
    ("https://N" : String) ≠ "" ∧
    runIsOk ((signedRequest c3srv testCrypto c3cachedHs "https://T" "post" .null none)
      ⟨[]⟩) = true ∧
    trace (runWorld ((signedRequest c3srv testCrypto c3cachedHs "https://T" "post"
        .null none) ⟨[]⟩))
      = ("post", "https://T") :: ("head", "https://N") :: trace ⟨[]⟩ :=
  ⟨rfl, rfl, by decide, by decide,
    c3_amended c3srv testCrypto c3cachedHs c3dir "https://N" "https://T" "post" .null
      none ⟨[]⟩ rfl rfl (by decide) (by decide)⟩

/-! ## Claim C4 -/

theorem getDirectory_ok_fields (server : Server) (hs hs' : HttpState) (w w' : World)
    (h : (getDirectory server hs) w = (.ok hs', w')) :
    hs'.accountKey = hs.accountKey ∧ hs'.jwk = hs.jwk := by
  cases hd : hs.directory with
  | some d =>
      simp [getDirectory, hd, M.pure] at h
      rw [← h.1]
      exact ⟨rfl, rfl⟩
  | none =>
      simp [getDirectory, hd, M.bind_run, httpRequest, M.pure] at h
      rw [← h.1]
      exact ⟨rfl, rfl⟩

theorem getResourceUrl_ok_fields (server : Server) (hs hs' : HttpState)
    (resource : Option String) (j : Json) (w w' : World)
    (h : (getResourceUrl server hs resource) w = (.ok (j, hs'), w')) :
    hs'.accountKey = hs.accountKey ∧ hs'.jwk = hs.jwk := by
  rcases hd : (getDirectory server hs) w with ⟨res, w1⟩
  cases res with
  | error e => simp [getResourceUrl, M.bind_run, hd, M.throw] at h
  | ok hs1 =>
      have hfields := getDirectory_ok_fields server hs hs1 w w1 hd
      by_cases ht : (match resource with
          | some r => (hs1.directory.getD .null).get r
          | none => Json.null).truthy = true
      · simp [getResourceUrl, M.bind_run, hd, ht, M.pure] at h
        rw [← h.1.2]
        exact hfields
      · simp [getResourceUrl, M.bind_run, hd, ht, M.throw] at h

theorem getNonce_ok_facts (server : Server) (hs hs1 : HttpState) (n : String)
    (w0 w1 : World) (h : (getNonce server hs) w0 = (.ok (n, hs1), w1)) :
    n ≠ "" ∧ hs1.accountKey = hs.accountKey ∧ hs1.jwk = hs.jwk ∧
    headNonce w1 = some n := by
  rcases hr : (getResourceUrl server hs (some "newNonce")) w0 with ⟨res, wr⟩
  cases res with
  | error e => simp [getNonce, M.bind_run, hr, M.throw] at h
  | ok p =>
      rcases p with ⟨urlJ, hsr⟩
      have hfields := getResourceUrl_ok_fields server hs hsr (some "newNonce") urlJ
        w0 wr hr
      cases urlJ with
      | str nu =>
          by_cases hempty : (((server wr.log ⟨nu, "head", none⟩).headers.find?
              (fun p => p.1 = "replay-nonce")).map (fun p => p.2)).getD "" = ""
          · simp [getNonce, M.bind_run, hr, httpRequest, hempty, M.throw] at h
          · simp [getNonce, M.bind_run, hr, httpRequest, hempty, M.pure] at h
            rcases h with ⟨⟨hn, hhs⟩, hw⟩
            subst hhs
            refine ⟨by rw [← hn]; exact hempty, hfields.1, hfields.2, ?_⟩
            rw [← hw, ← hn]
            cases hfind : (server wr.log ⟨nu, "head", none⟩).headers.find?
                (fun p => p.1 = "replay-nonce") with
            | none =>
                exfalso
                rw [hfind] at hempty
                simp at hempty
            | some p =>
                simp [headNonce, List.find?, hfind]
      | null => simp [getNonce, M.bind_run, hr, M.throw] at h
      | bool b => simp [getNonce, M.bind_run, hr, M.throw] at h
      | arr xs => simp [getNonce, M.bind_run, hr, M.throw] at h
      | obj fs => simp [getNonce, M.bind_run, hr, M.throw] at h

theorem createSignedBody_prot (c : Crypto) (hs : HttpState) (url : String)
    (payload : Json) (nonce kid : Option String) :
    (createSignedBody c hs url payload nonce kid).1.prot =
      b64encodeStr (Json.stringify (jwsHeader url nonce kid
        (if truthyStr kid = true then ⟨"", "", ""⟩ else (getJwk c hs).1))) := by
  by_cases hk : truthyStr kid = true
  · simp [createSignedBody, hk]
  · rcases hj : getJwk c hs with ⟨jwk, hs'⟩
    simp [createSignedBody, hk, hj]

theorem headNonce_cons_ne (e : HttpRequest × HttpResponse)
    (log : List (HttpRequest × HttpResponse)) (h : (e.1.method == "head") = false) :
    headNonce ⟨e :: log⟩ = headNonce ⟨log⟩ := by
  simp [headNonce, List.find?, h]

theorem getJwk_val_congr (c : Crypto) (hs hs1 : HttpState)
    (hk : hs1.accountKey = hs.accountKey) (hj : hs1.jwk = hs.jwk) :
    (getJwk c hs1).1 = (getJwk c hs).1 := by
  cases hjw : hs.jwk with
  | some j => simp [getJwk, hj, hjw]
  | none => simp [getJwk, hj, hjw, derivedJwk, hk]

/-- C4: for every signed request body produced by signedRequest, the
request is sent to the given url and base64url-decoding the protected
field yields (the UTF-8 bytes of) a JSON header with alg "RS256", url
equal to the request target URL, the non-empty freshly fetched nonce,
and exactly one of jwk or kid. -/
theorem c4_theorem (server : Server) (c : Crypto) (hs : HttpState) (url method : String)
    (payload : Json) (kid : Option String) (w0 : World)
    (hm : method ≠ "head")
    (hok : runIsOk ((signedRequest server c hs url method payload kid) w0) = true) :
    ∃ body nonce hdr,
      lastBody (runWorld ((signedRequest server c hs url method payload kid) w0))
        = some body ∧
      (lastReq (runWorld ((signedRequest server c hs url method payload kid) w0))).map
          (fun r => (r.method, r.url)) = some (method, url) ∧
      headNonce (runWorld ((signedRequest server c hs url method payload kid) w0))
        = some nonce ∧
      nonce ≠ "" ∧
      b64urlDecodeStr body.prot = some (utf8Bytes (Json.stringify hdr)) ∧
      hdr.get "alg" = .str "RS256" ∧
      hdr.get "url" = .str url ∧
      hdr.get "nonce" = .str nonce ∧
      hdr.hasKey "jwk" = !hdr.hasKey "kid" := by
  rcases hg : (getNonce server hs) w0 with ⟨res, w1⟩
  cases res with
  | error e =>
      exfalso
      revert hok
      simp [signedRequest, M.bind_run, hg, runIsOk]
  | ok p =>
      rcases p with ⟨n, hs1⟩
      obtain ⟨hn, hkey, hjwk, hhead⟩ := getNonce_ok_facts server hs hs1 n w0 w1 hg
      rcases hb : createSignedBody c hs1 url payload (some n) kid with ⟨body, hs2⟩
      have hrun : (signedRequest server c hs url method payload kid) w0 =
          (.ok (server w1.log ⟨url, method, some body⟩, hs2),
           ⟨(⟨url, method, some body⟩, server w1.log ⟨url, method, some body⟩) :: w1.log⟩)
          := by
        simp [signedRequest, M.bind_run, hg, hb, httpRequest, M.pure]
      have hmf : ((⟨url, method, some body⟩ : HttpRequest).method == "head") = false := by
        simp [hm]
      have htn : truthyStr (some n) = true := by
        simp [truthyStr, hn]
      refine ⟨body, n,
        jwsHeader url (some n) kid
          (if truthyStr kid = true then ⟨"", "", ""⟩ else (getJwk c hs1).1),
        ?_, ?_, ?_, hn, ?_, ?_, ?_, ?_, ?_⟩
      · rw [hrun]
        rfl
      · rw [hrun]
        rfl
      · rw [hrun]
        show headNonce ⟨_ :: w1.log⟩ = some n
        rw [headNonce_cons_ne _ _ hmf]
        exact hhead
      · have hp : body.prot = (createSignedBody c hs1 url payload (some n) kid).1.prot := by
          rw [hb]
        rw [hp, createSignedBody_prot]
        exact b64urlDecodeStr_b64encodeStr _
      · exact jwsHeader_get_alg url (some n) kid _
      · exact jwsHeader_get_url url (some n) kid _
      · exact jwsHeader_get_nonce url n kid _ htn
      · exact jwsHeader_xor url (some n) kid _

/-- C4, witness: the header properties evaluated on a concrete signed
request (jwk flavor). -/
theorem c4_witness :
    ("post" : String) ≠ "head" ∧
    runIsOk ((signedRequest c3srv testCrypto c3hs "https://T" "post" .null none)
      ⟨[]⟩) = true ∧
    (∃ body nonce hdr,
      lastBody (runWorld ((signedRequest c3srv testCrypto c3hs "https://T" "post"
          .null none) ⟨[]⟩)) = some body ∧
      (lastReq (runWorld ((signedRequest c3srv testCrypto c3hs "https://T" "post"
          .null none) ⟨[]⟩))).map (fun r => (r.method, r.url))
        = some ("post", "https://T") ∧
      headNonce (runWorld ((signedRequest c3srv testCrypto c3hs "https://T" "post"
          .null none) ⟨[]⟩)) = some nonce ∧
      nonce ≠ "" ∧
      b64urlDecodeStr body.prot = some (utf8Bytes (Json.stringify hdr)) ∧
      hdr.get "alg" = .str "RS256" ∧
      hdr.get "url" = .str "https://T" ∧
      hdr.get "nonce" = .str nonce ∧
      hdr.hasKey "jwk" = !hdr.hasKey "kid") :=
  ⟨by decide, by decide,
    c4_theorem c3srv testCrypto c3hs "https://T" "post" .null none ⟨[]⟩
      (by decide) (by decide)⟩

/-! ## Claim C6 -/

def c6dir (nu na : String) : Json :=
  .obj [("newNonce", .str nu), ("newAccount", .str na)]

/-- A standard-shaped ACME server for the account-creation scenario:
directory GETs return the directory, HEADs return a Replay-Nonce,
a POST to newAccount answers with st1 plus a Location header, any
other POST (the account URL) answers with st2. -/
def c6srv (nu na n loc : String) (st1 : Nat) (acct1 : Json) (st2 : Nat) (acct2 : Json) :
    Server := fun _ req =>
  if req.method == "get" then ⟨200, [], c6dir nu na⟩
  else if req.method == "head" then ⟨200, [("replay-nonce", n)], .null⟩
  else if req.url == na then ⟨st1, [("location", loc)], acct1⟩
  else ⟨st2, [], acct2⟩

theorem c6_createAccount_run (c : Crypto) (dirUrl nu na n loc key : String)
    (acct1 acct2 data : Json) (st1 st2 : Nat)
    (hnu : nu ≠ "") (hna : na ≠ "") (hn : n ≠ "") (hloc : loc ≠ "")
    (hst1 : st1 = 200 ∨ st1 = 201) :
    (apiCreateAccount (c6srv nu na n loc st1 acct1 st2 acct2) c
        ⟨⟨dirUrl, key, none, none⟩, none⟩ data) ⟨[]⟩
      = (.ok (⟨st1, [("location", loc)], acct1⟩,
              ⟨⟨dirUrl, key, some (c6dir nu na), some (derivedJwk c key)⟩, some loc⟩),
         ⟨[(⟨na, "post", some ((createSignedBody c ⟨dirUrl, key, some (c6dir nu na), none⟩
              na data (some n) none).1)⟩, ⟨st1, [("location", loc)], acct1⟩),
           (⟨nu, "head", none⟩, ⟨200, [("replay-nonce", n)], .null⟩),
           (⟨dirUrl, "get", none⟩, ⟨200, [], c6dir nu na⟩)]⟩) := by
  have hnub : (nu == "") = false := beq_eq_false_iff_ne.mpr hnu
  have hnab : (na == "") = false := beq_eq_false_iff_ne.mpr hna
  have hnb : (n == "") = false := beq_eq_false_iff_ne.mpr hn
  have hlocb : (loc == "") = false := beq_eq_false_iff_ne.mpr hloc
  have hst1mem : ¬ (([200, 201] : List Nat) ≠ [] ∧ st1 ∉ ([200, 201] : List Nat)) := by
    rcases hst1 with h | h <;> subst h <;> decide
  have hst1mem' : ¬ (¬ st1 = 200 ∧ ¬ st1 = 201) := by
    rcases hst1 with h | h <;> subst h <;> simp
  simp [apiCreateAccount, apiRequest, apiRequestRaw, checkStatus, getAccountUrl,
    signedRequest, getNonce, getResourceUrl, getDirectory, createSignedBody, getJwk,
    httpRequest, c6srv, c6dir, M.bind_run, M.pure, M.throw, truthyStr, Json.truthy,
    Json.get, List.find?, hnub, hnab, hnb, hlocb, hst1mem, hst1mem',
    show jsToLower "post" = "post" from by decide, hn]

theorem c6_updateAccount_run (c : Crypto) (dirUrl nu na n loc key : String)
    (acct1 acct2 data : Json) (st1 st2 : Nat) (jw : Option Jwk) (w0 : World)
    (hnu : nu ≠ "") (hn : n ≠ "") (hloc : loc ≠ "") (hlocna : loc ≠ na)
    (hst2 : st2 = 200 ∨ st2 = 202) :
    (apiUpdateAccount (c6srv nu na n loc st1 acct1 st2 acct2) c
        ⟨⟨dirUrl, key, some (c6dir nu na), jw⟩, some loc⟩ data) w0
      = (.ok (⟨st2, [], acct2⟩,
              ⟨⟨dirUrl, key, some (c6dir nu na), jw⟩, some loc⟩),
         ⟨(⟨loc, "post", some ((createSignedBody c ⟨dirUrl, key, some (c6dir nu na), jw⟩
              loc data (some n) (some loc)).1)⟩, ⟨st2, [], acct2⟩)
          :: (⟨nu, "head", none⟩, ⟨200, [("replay-nonce", n)], .null⟩) :: w0.log⟩) := by
  have hnub : (nu == "") = false := beq_eq_false_iff_ne.mpr hnu
  have hnb : (n == "") = false := beq_eq_false_iff_ne.mpr hn
  have hlocb : (loc == "") = false := beq_eq_false_iff_ne.mpr hloc
  have hlocnab : (loc == na) = false := beq_eq_false_iff_ne.mpr hlocna
  have hst2mem : ¬ (([200, 202] : List Nat) ≠ [] ∧ st2 ∉ ([200, 202] : List Nat)) := by
    rcases hst2 with h | h <;> subst h <;> decide
  have hst2mem' : ¬ (¬ st2 = 200 ∧ ¬ st2 = 202) := by
    rcases hst2 with h | h <;> subst h <;> simp
  simp [apiUpdateAccount, apiRequest, apiRequestRaw, checkStatus, getAccountUrl,
    signedRequest, getNonce, getResourceUrl, getDirectory, createSignedBody, getJwk,
    httpRequest, c6srv, c6dir, M.bind_run, M.pure, M.throw, truthyStr, Json.truthy,
    Json.get, List.find?, hnub, hnb, hlocb, hlocnab, hst2mem, hst2mem',
    show jsToLower "post" = "post" from by decide, hn]

/-- C6: on a client with no pre-known account URL, createAccount POSTs
newAccount; HTTP 201 yields the newly created account, HTTP 200 is
treated as an existing account (the run succeeds, returning the
follow-up updateAccount result rather than raising), and in both
cases the response's Location header is persisted as the account URL,
so a subsequent getAccountUrl returns it. -/
theorem c6_theorem (c : Crypto) (dirUrl nu na n loc key : String)
    (acct1 acct2 data : Json) (st2 : Nat) (bo : RetryOpts)
    (hnu : nu ≠ "") (hna : na ≠ "") (hn : n ≠ "") (hloc : loc ≠ "")
    (hlocna : loc ≠ na) (hst2 : st2 = 200 ∨ st2 = 202) :
    (runOk? ((clientCreateAccount (c6srv nu na n loc 201 acct1 st2 acct2) c 2
          ⟨dirUrl, bo, ⟨⟨dirUrl, key, none, none⟩, none⟩⟩ data) ⟨[]⟩)).map
        (fun p => (p.1, p.2.api.accountUrl, getAccountUrl p.2.api))
      = some (acct1, some loc, .ok loc) ∧
    trace (runWorld ((clientCreateAccount (c6srv nu na n loc 201 acct1 st2 acct2) c 2
          ⟨dirUrl, bo, ⟨⟨dirUrl, key, none, none⟩, none⟩⟩ data) ⟨[]⟩))
      = [("post", na), ("head", nu), ("get", dirUrl)] ∧
    (runOk? ((clientCreateAccount (c6srv nu na n loc 200 acct1 st2 acct2) c 2
          ⟨dirUrl, bo, ⟨⟨dirUrl, key, none, none⟩, none⟩⟩ data) ⟨[]⟩)).map
        (fun p => (p.1, p.2.api.accountUrl, getAccountUrl p.2.api))
      = some (acct2, some loc, .ok loc) ∧
    trace (runWorld ((clientCreateAccount (c6srv nu na n loc 200 acct1 st2 acct2) c 2
          ⟨dirUrl, bo, ⟨⟨dirUrl, key, none, none⟩, none⟩⟩ data) ⟨[]⟩))
      = [("post", loc), ("head", nu), ("post", na), ("head", nu), ("get", dirUrl)] := by
  have hlocb : (loc == "") = false := beq_eq_false_iff_ne.mpr hloc
  have h201 := c6_createAccount_run c dirUrl nu na n loc key acct1 acct2 data 201 st2
    hnu hna hn hloc (Or.inr rfl)
  have h200 := c6_createAccount_run c dirUrl nu na n loc key acct1 acct2 data 200 st2
    hnu hna hn hloc (Or.inl rfl)
  have hupd := c6_updateAccount_run c dirUrl nu na n loc key acct1 acct2 data 200 st2
    (some (derivedJwk c key))
    ⟨[(⟨na, "post", some ((createSignedBody c ⟨dirUrl, key, some (c6dir nu na), none⟩
        na data (some n) none).1)⟩, ⟨200, [("location", loc)], acct1⟩),
      (⟨nu, "head", none⟩, ⟨200, [("replay-nonce", n)], .null⟩),
      (⟨dirUrl, "get", none⟩, ⟨200, [], c6dir nu na⟩)]⟩
    hnu hn hloc hlocna hst2
  refine ⟨?_, ?_, ?_, ?_⟩
  · simp [clientCreateAccount, clientUpdateAccount, getAccountUrl, truthyStr,
      M.bind_run, M.pure, h201, runOk?, hlocb]
  · simp [clientCreateAccount, clientUpdateAccount, getAccountUrl, truthyStr,
      M.bind_run, M.pure, h201, runWorld, trace, hlocb]
  · simp [clientCreateAccount, clientUpdateAccount, getAccountUrl, truthyStr,
      M.bind_run, M.pure, h200, hupd, runOk?, hlocb]
  · simp [clientCreateAccount, clientUpdateAccount, getAccountUrl, truthyStr,
      M.bind_run, M.pure, h200, hupd, runWorld, trace, hlocb]

/-- C6, witness: the scenario evaluated on concrete URLs and payloads
(the 200 path exercises the existing-account branch). -/
theorem c6_witness :
    ("https://nn" : String) ≠ "" ∧ ("https://na" : String) ≠ "" ∧
    ("n0" : String) ≠ "" ∧ ("https://acct" : String) ≠ "" ∧
    ("https://acct" : String) ≠ "https://na" ∧ ((200 : Nat) = 200 ∨ (200 : Nat) = 202) ∧
    (runOk? ((clientCreateAccount
          (c6srv "https://nn" "https://na" "n0" "https://acct" 201 (.str "new")
            200 (.str "existing")) testCrypto 2
          ⟨"https://dir", {}, ⟨⟨"https://dir", "key", none, none⟩, none⟩⟩
          (.obj [("termsOfServiceAgreed", .bool true)])) ⟨[]⟩)).map
        (fun p => (p.1, p.2.api.accountUrl, getAccountUrl p.2.api))
      = some (.str "new", some "https://acct", .ok "https://acct") ∧
    trace (runWorld ((clientCreateAccount
          (c6srv "https://nn" "https://na" "n0" "https://acct" 201 (.str "new")
            200 (.str "existing")) testCrypto 2
          ⟨"https://dir", {}, ⟨⟨"https://dir", "key", none, none⟩, none⟩⟩
          (.obj [("termsOfServiceAgreed", .bool true)])) ⟨[]⟩))
      = [("post", "https://na"), ("head", "https://nn"), ("get", "https://dir")] ∧
    (runOk? ((clientCreateAccount
          (c6srv "https://nn" "https://na" "n0" "https://acct" 200 (.str "new")
            200 (.str "existing")) testCrypto 2
          ⟨"https://dir", {}, ⟨⟨"https://dir", "key", none, none⟩, none⟩⟩
          (.obj [("termsOfServiceAgreed", .bool true)])) ⟨[]⟩)).map
        (fun p => (p.1, p.2.api.accountUrl, getAccountUrl p.2.api))
      = some (.str "existing", some "https://acct", .ok "https://acct") ∧
    trace (runWorld ((clientCreateAccount
          (c6srv "https://nn" "https://na" "n0" "https://acct" 200 (.str "new")
            200 (.str "existing")) testCrypto 2
          ⟨"https://dir", {}, ⟨⟨"https://dir", "key", none, none⟩, none⟩⟩
          (.obj [("termsOfServiceAgreed", .bool true)])) ⟨[]⟩))
      = [("post", "https://acct"), ("head", "https://nn"), ("post", "https://na"),
         ("head", "https://nn"), ("get", "https://dir")] := by
  have h := c6_theorem testCrypto "https://dir" "https://nn" "https://na" "n0"
    "https://acct" "key" (.str "new") (.str "existing")
    (.obj [("termsOfServiceAgreed", .bool true)]) 200 {}
    (by decide) (by decide) (by decide) (by decide) (by decide) (Or.inl rfl)
  exact ⟨by decide, by decide, by decide, by decide, by decide, Or.inl rfl,
    h.1, h.2.1, h.2.2.1, h.2.2.2⟩

/-! ## Claim C10 -/

theorem c10_update_run (c : Crypto) (dirUrl nu na n u key : String)
    (acct1 acct2 data : Json) (st1 st2 : Nat)
    (hnu : nu ≠ "") (hn : n ≠ "") (hu : u ≠ "") (huna : u ≠ na)
    (hst2 : st2 = 200 ∨ st2 = 202) :
    (apiUpdateAccount (c6srv nu na n u st1 acct1 st2 acct2) c
        ⟨⟨dirUrl, key, none, none⟩, some u⟩ data) ⟨[]⟩
      = (.ok (⟨st2, [], acct2⟩, ⟨⟨dirUrl, key, some (c6dir nu na), none⟩, some u⟩),
         ⟨[(⟨u, "post", some ((createSignedBody c ⟨dirUrl, key, some (c6dir nu na), none⟩
              u data (some n) (some u)).1)⟩, ⟨st2, [], acct2⟩),
           (⟨nu, "head", none⟩, ⟨200, [("replay-nonce", n)], .null⟩),
           (⟨dirUrl, "get", none⟩, ⟨200, [], c6dir nu na⟩)]⟩) := by
  have hnub : (nu == "") = false := beq_eq_false_iff_ne.mpr hnu
  have hnb : (n == "") = false := beq_eq_false_iff_ne.mpr hn
  have hub : (u == "") = false := beq_eq_false_iff_ne.mpr hu
  have hunab : (u == na) = false := beq_eq_false_iff_ne.mpr huna
  have hst2mem : ¬ (([200, 202] : List Nat) ≠ [] ∧ st2 ∉ ([200, 202] : List Nat)) := by
    rcases hst2 with h | h <;> subst h <;> decide
  have hst2mem' : ¬ (¬ st2 = 200 ∧ ¬ st2 = 202) := by
    rcases hst2 with h | h <;> subst h <;> simp
  simp [apiUpdateAccount, apiRequest, apiRequestRaw, checkStatus, getAccountUrl,
    signedRequest, getNonce, getResourceUrl, getDirectory, createSignedBody, getJwk,
    httpRequest, c6srv, c6dir, M.bind_run, M.pure, M.throw, truthyStr, Json.truthy,
    Json.get, List.find?, hnub, hnb, hub, hunab, hst2mem, hst2mem',
    show jsToLower "post" = "post" from by decide, hn]

/-- C10: updateAccount on a client with no account URL does not raise
but falls back to createAccount; conversely createAccount on a client
whose account URL is set delegates to updateAccount instead of POSTing
newAccount — concretely, such a run POSTs only the account URL (zero
POSTs to newAccount) and succeeds with the update response. -/
theorem c10_theorem :
    (∀ (server : Server) (c : Crypto) (fuel : Nat) (cs : ClientState) (data : Json),
      truthyStr cs.api.accountUrl = false →
      clientUpdateAccount server c (fuel + 1) cs data
        = clientCreateAccount server c fuel cs data) ∧
    (∀ (server : Server) (c : Crypto) (fuel : Nat) (cs : ClientState) (data : Json),
      truthyStr cs.api.accountUrl = true →
      clientCreateAccount server c (fuel + 1) cs data
        = clientUpdateAccount server c fuel cs data) ∧
    (∀ (c : Crypto) (dirUrl nu na n u key : String) (acct1 acct2 data : Json)
        (st1 st2 : Nat) (bo : RetryOpts),
      nu ≠ "" → n ≠ "" → u ≠ "" → u ≠ na → (st2 = 200 ∨ st2 = 202) →
      countReq "post" na (runWorld ((clientCreateAccount
          (c6srv nu na n u st1 acct1 st2 acct2) c 2
          ⟨dirUrl, bo, ⟨⟨dirUrl, key, none, none⟩, some u⟩⟩ data) ⟨[]⟩)) = 0 ∧
      trace (runWorld ((clientCreateAccount
          (c6srv nu na n u st1 acct1 st2 acct2) c 2
          ⟨dirUrl, bo, ⟨⟨dirUrl, key, none, none⟩, some u⟩⟩ data) ⟨[]⟩))
        = [("post", u), ("head", nu), ("get", dirUrl)] ∧
      (runOk? ((clientCreateAccount
          (c6srv nu na n u st1 acct1 st2 acct2) c 2
          ⟨dirUrl, bo, ⟨⟨dirUrl, key, none, none⟩, some u⟩⟩ data) ⟨[]⟩)).map
          (fun p => p.1) = some acct2) := by
  refine ⟨?_, ?_, ?_⟩
  · intro server c fuel cs data h
    simp [clientUpdateAccount, getAccountUrl, h]
  · intro server c fuel cs data h
    simp [clientCreateAccount, getAccountUrl, h]
  · intro c dirUrl nu na n u key acct1 acct2 data st1 st2 bo hnu hn hu huna hst2
    have hub : (u == "") = false := beq_eq_false_iff_ne.mpr hu
    have hunab : (u == na) = false := beq_eq_false_iff_ne.mpr huna
    have hrun := c10_update_run c dirUrl nu na n u key acct1 acct2 data st1 st2
      hnu hn hu huna hst2
    refine ⟨?_, ?_, ?_⟩
    · simp [clientCreateAccount, clientUpdateAccount, getAccountUrl, truthyStr,
        M.bind_run, M.pure, hrun, runWorld, countReq, List.filter, hub, hunab]
    · simp [clientCreateAccount, clientUpdateAccount, getAccountUrl, truthyStr,
        M.bind_run, M.pure, hrun, runWorld, trace, hub]
    · simp [clientCreateAccount, clientUpdateAccount, getAccountUrl, truthyStr,
        M.bind_run, M.pure, hrun, runOk?, hub]

/-- C10, witness: the fallback equation and the delegation scenario
evaluated at concrete inputs. -/
theorem c10_witness :
    truthyStr (⟨"https://dir", {}, ⟨⟨"https://dir", "key", none, none⟩, none⟩⟩ :
        ClientState).api.accountUrl = false ∧
    clientUpdateAccount (c6srv "https://nn" "https://na" "n0" "https://acct" 200
          (.str "a1") 200 (.str "a2")) testCrypto 2
        ⟨"https://dir", {}, ⟨⟨"https://dir", "key", none, none⟩, none⟩⟩ (.obj [])
      = clientCreateAccount (c6srv "https://nn" "https://na" "n0" "https://acct" 200
          (.str "a1") 200 (.str "a2")) testCrypto 1
        ⟨"https://dir", {}, ⟨⟨"https://dir", "key", none, none⟩, none⟩⟩ (.obj []) ∧
    countReq "post" "https://na" (runWorld ((clientCreateAccount
        (c6srv "https://nn" "https://na" "n0" "https://acct" 200 (.str "a1") 200
          (.str "a2")) testCrypto 2
        ⟨"https://dir", {}, ⟨⟨"https://dir", "key", none, none⟩, some "https://acct"⟩⟩
        (.obj [])) ⟨[]⟩)) = 0 ∧
    trace (runWorld ((clientCreateAccount
        (c6srv "https://nn" "https://na" "n0" "https://acct" 200 (.str "a1") 200
          (.str "a2")) testCrypto 2
        ⟨"https://dir", {}, ⟨⟨"https://dir", "key", none, none⟩, some "https://acct"⟩⟩
        (.obj [])) ⟨[]⟩))
      = [("post", "https://acct"), ("head", "https://nn"), ("get", "https://dir")] ∧
    (runOk? ((clientCreateAccount
        (c6srv "https://nn" "https://na" "n0" "https://acct" 200 (.str "a1") 200
          (.str "a2")) testCrypto 2
        ⟨"https://dir", {}, ⟨⟨"https://dir", "key", none, none⟩, some "https://acct"⟩⟩
        (.obj [])) ⟨[]⟩)).map (fun p => p.1) = some (.str "a2") := by
  have h3 := c10_theorem.2.2 testCrypto "https://dir" "https://nn" "https://na" "n0"
    "https://acct" "key" (.str "a1") (.str "a2") (.obj []) 200 200 {}
    (by decide) (by decide) (by decide) (by decide) (Or.inl rfl)
  exact ⟨by decide,
    c10_theorem.1 (c6srv "https://nn" "https://na" "n0" "https://acct" 200
        (.str "a1") 200 (.str "a2")) testCrypto 1
      ⟨"https://dir", {}, ⟨⟨"https://dir", "key", none, none⟩, none⟩⟩ (.obj [])
      (by decide),
    h3.1, h3.2.1, h3.2.2⟩

/-! ## Claim C5 -/

theorem createSignedBody_payload (c : Crypto) (hs : HttpState) (url : String)
    (payload : Json) (nonce kid : Option String) :
    (createSignedBody c hs url payload nonce kid).1.payload
      = b64encodeStr payload.stringify := by
  by_cases hk : truthyStr kid = true
  · simp [createSignedBody, hk]
  · rcases hj : getJwk c hs with ⟨jwk, hs'⟩
    simp [createSignedBody, hk, hj]

theorem getJwk_accountKey (c : Crypto) (hs : HttpState) :
    (getJwk c hs).2.accountKey = hs.accountKey := by
  cases hj : hs.jwk <;> simp [getJwk, hj]

theorem createSignedBody_signedWith (c : Crypto) (hs : HttpState) (url : String)
    (payload : Json) (nonce kid : Option String) :
    signedWith c hs.accountKey (createSignedBody c hs url payload nonce kid).1 = true := by
  by_cases hk : truthyStr kid = true
  · simp [createSignedBody, hk, signedWith]
  · rcases hj : getJwk c hs with ⟨jwk, hs'⟩
    have hkey : hs'.accountKey = hs.accountKey := by
      have := getJwk_accountKey c hs
      rw [hj] at this
      exact this
    simp [createSignedBody, hk, hj, signedWith, hkey]

theorem signedRequest_signedWith (server : Server) (c : Crypto) (hs : HttpState)
    (url method : String) (payload : Json) (kid : Option String) (w0 : World)
    (hok : runIsOk ((signedRequest server c hs url method payload kid) w0) = true) :
    (lastBody (runWorld ((signedRequest server c hs url method payload kid) w0))).map
        (signedWith c hs.accountKey) = some true := by
  rcases hg : (getNonce server hs) w0 with ⟨res, w1⟩
  cases res with
  | error e =>
      exfalso
      revert hok
      simp [signedRequest, M.bind_run, hg, runIsOk]
  | ok p =>
      rcases p with ⟨n, hs1⟩
      obtain ⟨hn, hkey, hjwk, hhead⟩ := getNonce_ok_facts server hs hs1 n w0 w1 hg
      rcases hb : createSignedBody c hs1 url payload (some n) kid with ⟨body, hs2⟩
      have hsw : signedWith c hs.accountKey body = true := by
        have := createSignedBody_signedWith c hs1 url payload (some n) kid
        rw [hb, hkey] at this
        exact this
      simp [signedRequest, M.bind_run, hg, hb, httpRequest, M.pure, runWorld,
        lastBody, lastReq, hsw]

def c5dir (nu kc : String) : Json :=
  .obj [("newNonce", .str nu), ("keyChange", .str kc)]

/-- The server of the key-rollover scenario: GETs return the
directory, HEADs return a fresh Replay-Nonce, any POST (the keyChange
POST) answers 200 with the account object. -/
def c5srv (nu kc n : String) (acct : Json) : Server := fun _ req =>
  if req.method == "get" then ⟨200, [], c5dir nu kc⟩
  else if req.method == "head" then ⟨200, [("replay-nonce", n)], .null⟩
  else ⟨200, [], acct⟩

/-- The rollover payload after updateAccountKey mutates it: the caller
data with account, oldKey and newKey assigned. -/
def c5data (c : Crypto) (au okey nkey : String) (d : List (String × Json)) : Json :=
  ((((Json.obj d).objSet "account" (.str au)).objSet "oldKey"
    (jwkJson (derivedJwk c okey))).objSet "newKey" (jwkJson (derivedJwk c nkey)))

/-- The inner JWS of the rollover: built by the fresh new-key client
after it fetched the directory and derived its JWK. -/
def c5innerBody (c : Crypto) (dirUrl nu kc nkey : String) (payload : Json) : SignedBody :=
  (createSignedBody c ⟨dirUrl, nkey, some (c5dir nu kc), some (derivedJwk c nkey)⟩
    kc payload none none).1

/-- The outer JWS of the rollover: built by the old-key client with
nonce and kid. -/
def c5outerBody (c : Crypto) (dirUrl nu kc okey au n : String) (inner : SignedBody) :
    SignedBody :=
  (createSignedBody c ⟨dirUrl, okey, some (c5dir nu kc), some (derivedJwk c okey)⟩
    kc (sbJson inner) (some n) (some au)).1

theorem c5_run (c : Crypto) (dirUrl nu kc n okey nkey au : String) (acct : Json)
    (d : List (String × Json)) (bo : RetryOpts)
    (hau : au ≠ "") (hkc : kc ≠ "") (hnu : nu ≠ "") (hn : n ≠ "") :
    (clientUpdateAccountKey (c5srv nu kc n acct) c
        ⟨dirUrl, bo, ⟨⟨dirUrl, okey, none, none⟩, some au⟩⟩ nkey (.obj d)) ⟨[]⟩
      = (.ok (acct, ⟨dirUrl, bo, ⟨⟨dirUrl, nkey, some (c5dir nu kc),
            some (derivedJwk c nkey)⟩, some au⟩⟩),
         ⟨[(⟨kc, "post", some (c5outerBody c dirUrl nu kc okey au n
              (c5innerBody c dirUrl nu kc nkey (c5data c au okey nkey d)))⟩,
            ⟨200, [], acct⟩),
           (⟨nu, "head", none⟩, ⟨200, [("replay-nonce", n)], .null⟩),
           (⟨dirUrl, "get", none⟩, ⟨200, [], c5dir nu kc⟩),
           (⟨dirUrl, "get", none⟩, ⟨200, [], c5dir nu kc⟩)]⟩) := by
  have haub : (au == "") = false := beq_eq_false_iff_ne.mpr hau
  have hkcb : (kc == "") = false := beq_eq_false_iff_ne.mpr hkc
  have hnub : (nu == "") = false := beq_eq_false_iff_ne.mpr hnu
  have hnb : (n == "") = false := beq_eq_false_iff_ne.mpr hn
  simp [clientUpdateAccountKey, apiUpdateAccountKey, apiRequest, apiRequestRaw,
    checkStatus, getAccountUrl, signedRequest, getNonce, getResourceUrl, getDirectory,
    createSignedBody, getJwk, httpRequest, c5srv, c5dir, c5data, c5innerBody,
    c5outerBody, sbJson, Json.objSet, M.bind_run, M.pure, M.throw, truthyStr,
    Json.truthy, Json.get, List.find?, haub, hkcb, hnub, hnb, hn,
    show jsToLower "post" = "post" from by decide]

/-- C5: updateAccountKey builds an inner JWS signed by the new key
whose protected header carries the keyChange URL and the new key's
jwk with no kid (and no nonce); it wraps that inner body (as its JSON
serialization) as the payload of an outer JWS signed by the old key
and POSTs it to the keyChange URL; the inner payload contains
account = accountUrl and oldKey = the old JWK; on success the
client's transport and api objects are replaced so the account key of
the client's http state is the new key, and every subsequent
successful signed request from that state is signed with the new
key. -/
theorem c5_theorem (c : Crypto) (dirUrl nu kc n okey nkey au : String) (acct : Json)
    (d : List (String × Json)) (bo : RetryOpts)
    (hau : au ≠ "") (hkc : kc ≠ "") (hnu : nu ≠ "") (hn : n ≠ "") :
    (runOk? ((clientUpdateAccountKey (c5srv nu kc n acct) c
        ⟨dirUrl, bo, ⟨⟨dirUrl, okey, none, none⟩, some au⟩⟩ nkey (.obj d)) ⟨[]⟩)).map
        (fun p => (p.1, p.2.api.http.accountKey, p.2.api.accountUrl))
      = some (acct, nkey, some au) ∧
    (lastReq (runWorld ((clientUpdateAccountKey (c5srv nu kc n acct) c
        ⟨dirUrl, bo, ⟨⟨dirUrl, okey, none, none⟩, some au⟩⟩ nkey (.obj d)) ⟨[]⟩))).map
        (fun r => (r.method, r.url)) = some ("post", kc) ∧
    (lastBody (runWorld ((clientUpdateAccountKey (c5srv nu kc n acct) c
        ⟨dirUrl, bo, ⟨⟨dirUrl, okey, none, none⟩, some au⟩⟩ nkey (.obj d)) ⟨[]⟩))).map
        (signedWith c okey) = some true ∧
    (lastBody (runWorld ((clientUpdateAccountKey (c5srv nu kc n acct) c
        ⟨dirUrl, bo, ⟨⟨dirUrl, okey, none, none⟩, some au⟩⟩ nkey (.obj d)) ⟨[]⟩))).map
        (fun b => b.payload)
      = some (b64encodeStr (Json.stringify (sbJson
          (c5innerBody c dirUrl nu kc nkey (c5data c au okey nkey d))))) ∧
    signedWith c nkey (c5innerBody c dirUrl nu kc nkey (c5data c au okey nkey d))
      = true ∧
    b64urlDecodeStr (c5innerBody c dirUrl nu kc nkey (c5data c au okey nkey d)).prot
      = some (utf8Bytes (Json.stringify
          (jwsHeader kc none none (derivedJwk c nkey)))) ∧
    (jwsHeader kc none none (derivedJwk c nkey)).get "url" = .str kc ∧
    (jwsHeader kc none none (derivedJwk c nkey)).get "jwk"
      = jwkJson (derivedJwk c nkey) ∧
    (jwsHeader kc none none (derivedJwk c nkey)).hasKey "kid" = false ∧
    (jwsHeader kc none none (derivedJwk c nkey)).hasKey "nonce" = false ∧
    b64urlDecodeStr (c5innerBody c dirUrl nu kc nkey (c5data c au okey nkey d)).payload
      = some (utf8Bytes (Json.stringify (c5data c au okey nkey d))) ∧
    (c5data c au okey nkey d).get "account" = .str au ∧
    (c5data c au okey nkey d).get "oldKey" = jwkJson (derivedJwk c okey) ∧
    (∀ (server' : Server) (url' method' : String) (payload' : Json)
        (kid' : Option String) (w' : World),
      runIsOk ((signedRequest server' c
          ⟨dirUrl, nkey, some (c5dir nu kc), some (derivedJwk c nkey)⟩
          url' method' payload' kid') w') = true →
      (lastBody (runWorld ((signedRequest server' c
          ⟨dirUrl, nkey, some (c5dir nu kc), some (derivedJwk c nkey)⟩
          url' method' payload' kid') w'))).map (signedWith c nkey) = some true) := by
  have hrun := c5_run c dirUrl nu kc n okey nkey au acct d bo hau hkc hnu hn
  refine ⟨?_, ?_, ?_, ?_, ?_, ?_, ?_, ?_, ?_, ?_, ?_, ?_, ?_, ?_⟩
  · simp [hrun, runOk?]
  · simp [hrun, runWorld, lastReq]
  · have : signedWith c okey (c5outerBody c dirUrl nu kc okey au n
        (c5innerBody c dirUrl nu kc nkey (c5data c au okey nkey d))) = true := by
      have := createSignedBody_signedWith c
        ⟨dirUrl, okey, some (c5dir nu kc), some (derivedJwk c okey)⟩ kc
        (sbJson (c5innerBody c dirUrl nu kc nkey (c5data c au okey nkey d)))
        (some n) (some au)
      simpa [c5outerBody] using this
    simp [hrun, runWorld, lastReq, lastBody, this]
  · have : (c5outerBody c dirUrl nu kc okey au n
        (c5innerBody c dirUrl nu kc nkey (c5data c au okey nkey d))).payload
        = b64encodeStr (Json.stringify (sbJson
            (c5innerBody c dirUrl nu kc nkey (c5data c au okey nkey d)))) := by
      simpa [c5outerBody] using createSignedBody_payload c
        ⟨dirUrl, okey, some (c5dir nu kc), some (derivedJwk c okey)⟩ kc
        (sbJson (c5innerBody c dirUrl nu kc nkey (c5data c au okey nkey d)))
        (some n) (some au)
    simp [hrun, runWorld, lastReq, lastBody, this]
  · have := createSignedBody_signedWith c
      ⟨dirUrl, nkey, some (c5dir nu kc), some (derivedJwk c nkey)⟩ kc
      (c5data c au okey nkey d) none none
    simpa [c5innerBody] using this
  · have hp : (c5innerBody c dirUrl nu kc nkey (c5data c au okey nkey d)).prot
        = b64encodeStr (Json.stringify (jwsHeader kc none none (derivedJwk c nkey))) := by
      have := createSignedBody_prot c
        ⟨dirUrl, nkey, some (c5dir nu kc), some (derivedJwk c nkey)⟩ kc
        (c5data c au okey nkey d) none none
      simpa [c5innerBody, truthyStr, getJwk] using this
    rw [hp]
    exact b64urlDecodeStr_b64encodeStr _
  · exact jwsHeader_get_url kc none none _
  · exact jwsHeader_get_jwk_nokid kc none _
  · exact jwsHeader_hasKey_kid_none kc none _
  · exact jwsHeader_hasKey_nonce_none kc none _
  · have hp : (c5innerBody c dirUrl nu kc nkey (c5data c au okey nkey d)).payload
        = b64encodeStr (Json.stringify (c5data c au okey nkey d)) := by
      simpa [c5innerBody] using createSignedBody_payload c
        ⟨dirUrl, nkey, some (c5dir nu kc), some (derivedJwk c nkey)⟩ kc
        (c5data c au okey nkey d) none none
    rw [hp]
    exact b64urlDecodeStr_b64encodeStr _
  · show ((((Json.obj d).objSet "account" (.str au)).objSet "oldKey"
        (jwkJson (derivedJwk c okey))).objSet "newKey"
        (jwkJson (derivedJwk c nkey))).get "account" = .str au
    simp only [Json.objSet]
    rw [get_setField_ne _ _ _ _ (by decide), get_setField_ne _ _ _ _ (by decide)]
    exact get_setField_self d "account" (.str au)
  · show ((((Json.obj d).objSet "account" (.str au)).objSet "oldKey"
        (jwkJson (derivedJwk c okey))).objSet "newKey"
        (jwkJson (derivedJwk c nkey))).get "oldKey" = jwkJson (derivedJwk c okey)
    simp only [Json.objSet]
    rw [get_setField_ne _ _ _ _ (by decide)]
    exact get_setField_self _ "oldKey" _
  · intro server' url' method' payload' kid' w' hok
    have := signedRequest_signedWith server' c
      ⟨dirUrl, nkey, some (c5dir nu kc), some (derivedJwk c nkey)⟩
      url' method' payload' kid' w' hok
    simpa using this

/-- C5, witness: the rollover scenario evaluated at concrete keys and
URLs. -/
theorem c5_witness :
    ("https://acct" : String) ≠ "" ∧ ("https://kc" : String) ≠ "" ∧
    ("https://nn" : String) ≠ "" ∧ ("n0" : String) ≠ "" ∧
    ((runOk? ((clientUpdateAccountKey (c5srv "https://nn" "https://kc" "n0"
        (.str "rolled")) testCrypto
        ⟨"https://dir", {}, ⟨⟨"https://dir", "oldkey", none, none⟩,
          some "https://acct"⟩⟩ "newkey" (.obj [])) ⟨[]⟩)).map
        (fun p => (p.1, p.2.api.http.accountKey, p.2.api.accountUrl))
      = some (.str "rolled", "newkey", some "https://acct") ∧
    (lastReq (runWorld ((clientUpdateAccountKey (c5srv "https://nn" "https://kc" "n0"
        (.str "rolled")) testCrypto
        ⟨"https://dir", {}, ⟨⟨"https://dir", "oldkey", none, none⟩,
          some "https://acct"⟩⟩ "newkey" (.obj [])) ⟨[]⟩))).map
        (fun r => (r.method, r.url)) = some ("post", "https://kc") ∧
    (lastBody (runWorld ((clientUpdateAccountKey (c5srv "https://nn" "https://kc" "n0"
        (.str "rolled")) testCrypto
        ⟨"https://dir", {}, ⟨⟨"https://dir", "oldkey", none, none⟩,
          some "https://acct"⟩⟩ "newkey" (.obj [])) ⟨[]⟩))).map
        (signedWith testCrypto "oldkey") = some true ∧
    (lastBody (runWorld ((clientUpdateAccountKey (c5srv "https://nn" "https://kc" "n0"
        (.str "rolled")) testCrypto
        ⟨"https://dir", {}, ⟨⟨"https://dir", "oldkey", none, none⟩,
          some "https://acct"⟩⟩ "newkey" (.obj [])) ⟨[]⟩))).map
        (fun b => b.payload)
      = some (b64encodeStr (Json.stringify (sbJson
          (c5innerBody testCrypto "https://dir" "https://nn" "https://kc" "newkey"
            (c5data testCrypto "https://acct" "oldkey" "newkey" []))))) ∧
    signedWith testCrypto "newkey"
        (c5innerBody testCrypto "https://dir" "https://nn" "https://kc" "newkey"
          (c5data testCrypto "https://acct" "oldkey" "newkey" [])) = true ∧
    b64urlDecodeStr (c5innerBody testCrypto "https://dir" "https://nn" "https://kc"
        "newkey" (c5data testCrypto "https://acct" "oldkey" "newkey" [])).prot
      = some (utf8Bytes (Json.stringify
          (jwsHeader "https://kc" none none (derivedJwk testCrypto "newkey")))) ∧
    (jwsHeader "https://kc" none none (derivedJwk testCrypto "newkey")).get "url"
      = .str "https://kc" ∧
    (jwsHeader "https://kc" none none (derivedJwk testCrypto "newkey")).get "jwk"
      = jwkJson (derivedJwk testCrypto "newkey") ∧
    (jwsHeader "https://kc" none none (derivedJwk testCrypto "newkey")).hasKey "kid"
      = false ∧
    (jwsHeader "https://kc" none none (derivedJwk testCrypto "newkey")).hasKey "nonce"
      = false ∧
    b64urlDecodeStr (c5innerBody testCrypto "https://dir" "https://nn" "https://kc"
        "newkey" (c5data testCrypto "https://acct" "oldkey" "newkey" [])).payload
      = some (utf8Bytes (Json.stringify
          (c5data testCrypto "https://acct" "oldkey" "newkey" []))) ∧
    (c5data testCrypto "https://acct" "oldkey" "newkey" []).get "account"
      = .str "https://acct" ∧
    (c5data testCrypto "https://acct" "oldkey" "newkey" []).get "oldKey"
      = jwkJson (derivedJwk testCrypto "oldkey") ∧
    (∀ (server' : Server) (url' method' : String) (payload' : Json)
        (kid' : Option String) (w' : World),
      runIsOk ((signedRequest server' testCrypto
          ⟨"https://dir", "newkey", some (c5dir "https://nn" "https://kc"),
            some (derivedJwk testCrypto "newkey")⟩
          url' method' payload' kid') w') = true →
      (lastBody (runWorld ((signedRequest server' testCrypto
          ⟨"https://dir", "newkey", some (c5dir "https://nn" "https://kc"),
            some (derivedJwk testCrypto "newkey")⟩
          url' method' payload' kid') w'))).map (signedWith testCrypto "newkey")
        = some true)) :=
  ⟨by decide, by decide, by decide, by decide,
    c5_theorem testCrypto "https://dir" "https://nn" "https://kc" "n0" "oldkey"
      "newkey" "https://acct" (.str "rolled") [] {}
      (by decide) (by decide) (by decide) (by decide)⟩

/-! ## Claim C7 -/

/-- Length-and-result characterization of retryPromiseAux over any
attempt function whose outcome depends only on the number of logged
exchanges and which logs exactly one exchange per invocation. -/
theorem retryAux_gen_char (g : Nat → Except JsErr α × Bool) (fn : AttemptFn α)
    (hfn : ∀ w, (fn w).1 = g w.log.length ∧ (fn w).2.log.length = w.log.length + 1) :
    ∀ (r b : Nat) (w : World), w.log.length = b →
    ∀ j, b ≤ j →
    (∀ i, b ≤ i → i < j → plainErr (g i) = true) →
    j - b ≤ r →
    ((g j).1.isOk = true ∨ (g j).2 = true ∨ j - b = r) →
    ((retryPromiseAux fn r) w).1 = (g j).1 ∧
    ((retryPromiseAux fn r) w).2.log.length = j + 1 := by
  intro r
  induction r with
  | zero =>
      intro b w hw j hbj hplain hjr hterm
      have hj : j = b := by omega
      subst hj
      rcases hw' : fn w with ⟨res, w'⟩
      have hres : res = g j := by
        have := (hfn w).1
        rw [hw', hw] at this
        exact this
      have hlen : w'.log.length = j + 1 := by
        have := (hfn w).2
        rw [hw', hw] at this
        exact this
      rcases hg : g j with ⟨gr, gab⟩
      rw [hg] at hres
      cases gr <;> simp [retryPromiseAux, hw', hres, hg, hlen]
  | succ r ih =>
      intro b w hw j hbj hplain hjr hterm
      rcases hw' : fn w with ⟨res, w'⟩
      have hres : res = g b := by
        have := (hfn w).1
        rw [hw', hw] at this
        exact this
      have hlen : w'.log.length = b + 1 := by
        have := (hfn w).2
        rw [hw', hw] at this
        exact this
      by_cases hj : j = b
      · subst hj
        rcases hg : g j with ⟨gr, gab⟩
        rw [hg] at hres
        cases gr with
        | ok a => simp [retryPromiseAux, hw', hres, hg, hlen]
        | error e =>
            have hab : gab = true := by
              rcases hterm with hterm | hterm | hterm
              · rw [hg] at hterm
                simp [Except.isOk, Except.toBool] at hterm
              · rw [hg] at hterm
                exact hterm
              · omega
            subst hab
            simp [retryPromiseAux, hw', hres, hg, hlen]
      · have hbj1 : b + 1 ≤ j := by omega
        have hpb : plainErr (g b) = true := hplain b (le_refl b) (by omega)
        rcases hg : g b with ⟨gr, gab⟩
        rw [hg] at hres
        cases gr with
        | ok a => rw [hg] at hpb; simp [plainErr] at hpb
        | error e =>
            have hab : gab = false := by
              rw [hg] at hpb
              cases gab
              · rfl
              · simp [plainErr] at hpb
            subst hab
            have hrec := ih (b + 1) w' hlen j hbj1
              (fun i hi hij => hplain i (by omega) hij) (by omega)
              (by rcases hterm with hterm | hterm | hterm
                  · exact Or.inl hterm
                  · exact Or.inr (Or.inl hterm)
                  · exact Or.inr (Or.inr (by omega)))
            have hstep : (retryPromiseAux fn (r + 1)) w = (retryPromiseAux fn r) w' := by
              simp [retryPromiseAux, hw', hres, hg]
            rw [hstep]
            exact hrec

/-- The outcome of one poll of waitForValidStatus against a server
whose i-th response is seq i, mirroring the branches of the source's
verifyFn. -/
def c7outcome (seq : Nat → HttpResponse) (i : Nat) : Except JsErr Json × Bool :=
  let resp := seq i
  if ([200] : List Nat) ≠ [] ∧ resp.status ∉ ([200] : List Nat) then
    (match formatResponseError resp.data with
     | some m => (.error (.error m), false)
     | none => (.error .typeError, false))
  else if (resp.data.get "status").isStr "invalid" then
    (match formatResponseError resp.data with
     | some m => (.error (.error m), true)
     | none => (.error .typeError, true))
  else if (resp.data.get "status").isStr "pending" then
    (.error (.error "Operation is pending"), false)
  else if (resp.data.get "status").isStr "valid" then
    (.ok resp.data, false)
  else
    (.error (.error ("Unexpected item status: " ++ jsDisplay (resp.data.get "status"))),
     false)

theorem c7_fn_step (seq : Nat → HttpResponse) (c : Crypto) (a : ApiState) (url : String)
    (hurl : url ≠ "") (w : World) :
    (waitForValidStatusFn (fun hist _ => seq hist.length) c a url) w
      = (c7outcome seq w.log.length, ⟨(⟨url, "get", none⟩, seq w.log.length) :: w.log⟩) := by
  have hurlb : (url == "") = false := beq_eq_false_iff_ne.mpr hurl
  by_cases h1 : (seq w.log.length).status = 200
  · by_cases h2 : ((seq w.log.length).data.get "status").isStr "invalid" = true
    · cases hfmt : formatResponseError (seq w.log.length).data <;>
        simp [waitForValidStatusFn, apiGet, apiRequest, apiRequestRaw, checkStatus,
          httpRequest, M.bind_run, M.pure, M.throw, truthyStr, hurlb, h1, h2, hfmt,
          c7outcome, show jsToLower "get" = "get" from by decide]
    · by_cases h3 : ((seq w.log.length).data.get "status").isStr "pending" = true
      · simp [waitForValidStatusFn, apiGet, apiRequest, apiRequestRaw, checkStatus,
          httpRequest, M.bind_run, M.pure, M.throw, truthyStr, hurlb, h1, h2, h3,
          c7outcome, show jsToLower "get" = "get" from by decide]
      · by_cases h4 : ((seq w.log.length).data.get "status").isStr "valid" = true
        · simp [waitForValidStatusFn, apiGet, apiRequest, apiRequestRaw, checkStatus,
            httpRequest, M.bind_run, M.pure, M.throw, truthyStr, hurlb, h1, h2, h3, h4,
            c7outcome, show jsToLower "get" = "get" from by decide]
        · simp [waitForValidStatusFn, apiGet, apiRequest, apiRequestRaw, checkStatus,
            httpRequest, M.bind_run, M.pure, M.throw, truthyStr, hurlb, h1, h2, h3, h4,
            c7outcome, show jsToLower "get" = "get" from by decide]
  · cases hfmt : formatResponseError (seq w.log.length).data <;>
      simp [waitForValidStatusFn, apiGet, apiRequest, apiRequestRaw, checkStatus,
        httpRequest, M.bind_run, M.pure, M.throw, truthyStr, hurlb, h1, hfmt,
        c7outcome, show jsToLower "get" = "get" from by decide]

theorem isStr_ne (j : Json) (s t : String) (h : Json.isStr j s = true) (hst : s ≠ t) :
    Json.isStr j t = false := by
  cases j with
  | str u =>
      simp only [Json.isStr, beq_iff_eq] at h
      subst h
      simp only [Json.isStr]
      exact beq_eq_false_iff_ne.mpr hst
  | null => simp [Json.isStr]
  | bool b => simp [Json.isStr]
  | arr xs => simp [Json.isStr]
  | obj fs => simp [Json.isStr]

theorem c7outcome_pending (seq : Nat → HttpResponse) (i : Nat)
    (hst : (seq i).status = 200)
    (hp : ((seq i).data.get "status").isStr "pending" = true) :
    plainErr (c7outcome seq i) = true ∧
    (c7outcome seq i).1.isOk = false := by
  have hinv : ((seq i).data.get "status").isStr "invalid" = false :=
    isStr_ne _ _ _ hp (by decide)
  simp [c7outcome, hst, hinv, hp, plainErr, Except.isOk, Except.toBool]

/-- C7: polling an item URL against a server that answers pending k
times and then a terminal status: when poll k reports valid the run
returns that poll's body after exactly k+1 polls; when poll k reports
invalid the run aborts and raises after exactly k+1 polls — no
further polling even though attempts remain — with an error carrying
the formatted server-reported error; and formatResponseError carries
error.detail whenever it is a truthy string. -/
theorem c7_theorem (seqV seqI : Nat → HttpResponse) (c : Crypto) (a : ApiState)
    (dirUrl url : String) (A mn mx kV kI : Nat) (m : String)
    (hurl : url ≠ "")
    (hVpend : ∀ i, i < kV → (seqV i).status = 200 ∧
      ((seqV i).data.get "status").isStr "pending" = true)
    (hVterm : (seqV kV).status = 200 ∧
      ((seqV kV).data.get "status").isStr "valid" = true)
    (hkV : kV < max 1 A)
    (hIpend : ∀ i, i < kI → (seqI i).status = 200 ∧
      ((seqI i).data.get "status").isStr "pending" = true)
    (hIterm : (seqI kI).status = 200 ∧
      ((seqI kI).data.get "status").isStr "invalid" = true)
    (hIfmt : formatResponseError ((seqI kI).data) = some m)
    (hkI : kI < max 1 A) :
    ((waitForValidStatus (fun hist _ => seqV hist.length) c ⟨dirUrl, ⟨A, mn, mx⟩, a⟩ url)
        ⟨[]⟩).1 = .ok ((seqV kV).data) ∧
    ((waitForValidStatus (fun hist _ => seqV hist.length) c ⟨dirUrl, ⟨A, mn, mx⟩, a⟩ url)
        ⟨[]⟩).2.log.length = kV + 1 ∧
    ((waitForValidStatus (fun hist _ => seqI hist.length) c ⟨dirUrl, ⟨A, mn, mx⟩, a⟩ url)
        ⟨[]⟩).1 = .error (.error m) ∧
    ((waitForValidStatus (fun hist _ => seqI hist.length) c ⟨dirUrl, ⟨A, mn, mx⟩, a⟩ url)
        ⟨[]⟩).2.log.length = kI + 1 ∧
    (∀ (data : Json) (dtl : String),
      (data.get "error").truthy = true →
      (data.get "error").get "detail" = .str dtl → dtl ≠ "" →
      formatResponseError data = some (stripNewlines dtl)) := by
  have hurlb : (url == "") = false := beq_eq_false_iff_ne.mpr hurl
  have hwait : ∀ (seq : Nat → HttpResponse),
      (waitForValidStatus (fun hist _ => seq hist.length) c ⟨dirUrl, ⟨A, mn, mx⟩, a⟩ url)
        = retryPromiseAux (waitForValidStatusFn (fun hist _ => seq hist.length) c a url)
            (A - (0 + 1)) := by
    intro seq
    simp [waitForValidStatus, truthyStr, hurlb, retry, retryPromise]
  have hfn : ∀ (seq : Nat → HttpResponse) (w : World),
      ((waitForValidStatusFn (fun hist _ => seq hist.length) c a url) w).1
        = c7outcome seq w.log.length ∧
      ((waitForValidStatusFn (fun hist _ => seq hist.length) c a url) w).2.log.length
        = w.log.length + 1 := by
    intro seq w
    rw [c7_fn_step seq c a url hurl w]
    exact ⟨rfl, rfl⟩
  have hVchar := retryAux_gen_char (c7outcome seqV)
    (waitForValidStatusFn (fun hist _ => seqV hist.length) c a url) (hfn seqV)
    (A - (0 + 1)) 0 ⟨[]⟩ rfl kV (Nat.zero_le kV)
    (fun i _ hik => ((c7outcome_pending seqV i (hVpend i hik).1 (hVpend i hik).2)).1)
    (by omega)
    (by
      have hinv : ((seqV kV).data.get "status").isStr "invalid" = false :=
        isStr_ne _ _ _ hVterm.2 (by decide)
      have hpend : ((seqV kV).data.get "status").isStr "pending" = false :=
        isStr_ne _ _ _ hVterm.2 (by decide)
      exact Or.inl (by
        simp [c7outcome, hVterm.1, hVterm.2, hinv, hpend, Except.isOk, Except.toBool]))
  have hIchar := retryAux_gen_char (c7outcome seqI)
    (waitForValidStatusFn (fun hist _ => seqI hist.length) c a url) (hfn seqI)
    (A - (0 + 1)) 0 ⟨[]⟩ rfl kI (Nat.zero_le kI)
    (fun i _ hik => ((c7outcome_pending seqI i (hIpend i hik).1 (hIpend i hik).2)).1)
    (by omega)
    (Or.inr (Or.inl (by simp [c7outcome, hIterm.1, hIterm.2, hIfmt])))
  have hVout : (c7outcome seqV kV).1 = .ok ((seqV kV).data) := by
    have hinv : ((seqV kV).data.get "status").isStr "invalid" = false :=
      isStr_ne _ _ _ hVterm.2 (by decide)
    have hpend : ((seqV kV).data.get "status").isStr "pending" = false :=
      isStr_ne _ _ _ hVterm.2 (by decide)
    simp [c7outcome, hVterm.1, hVterm.2, hinv, hpend]
  have hIout : (c7outcome seqI kI).1 = .error (.error m) := by
    simp [c7outcome, hIterm.1, hIterm.2, hIfmt]
  refine ⟨?_, ?_, ?_, ?_, ?_⟩
  · rw [hwait seqV, ← hVout]
    exact hVchar.1
  · rw [hwait seqV]
    exact hVchar.2
  · rw [hwait seqI, ← hIout]
    exact hIchar.1
  · rw [hwait seqI]
    exact hIchar.2
  · intro data dtl htr hdet hdtl
    have hd : (Json.str dtl).truthy = true := by simp [Json.truthy, hdtl]
    simp [formatResponseError, htr, hdet, hd]

def c7pendResp : HttpResponse := ⟨200, [], .obj [("status", .str "pending")]⟩

def c7validResp : HttpResponse :=
  ⟨200, [], .obj [("status", .str "valid"), ("token", .str "t1")]⟩

def c7invalidResp : HttpResponse :=
  ⟨200, [], .obj [("status", .str "invalid"),
                  ("error", .obj [("detail", .str "dns lookup failed")])]⟩

def c7seqV : Nat → HttpResponse := fun i => if i < 2 then c7pendResp else c7validResp

def c7seqI : Nat → HttpResponse := fun i => if i < 1 then c7pendResp else c7invalidResp

def c7api : ApiState := ⟨⟨"https://d", "k", none, none⟩, none⟩

/-- C7, witness: two pending polls then valid returns the body after
three polls; one pending poll then invalid aborts after two polls with
the server-reported detail, although three attempts remained. -/
theorem c7_witness :
    ("https://item" : String) ≠ "" ∧
    (c7seqV 2).status = 200 ∧ ((c7seqV 2).data.get "status").isStr "valid" = true ∧
    (c7seqI 1).status = 200 ∧ ((c7seqI 1).data.get "status").isStr "invalid" = true ∧
    formatResponseError ((c7seqI 1).data) = some "dns lookup failed" ∧
    2 < max 1 5 ∧ 1 < max 1 5 ∧
    (((waitForValidStatus (fun hist _ => c7seqV hist.length) testCrypto
        ⟨"https://d", ⟨5, 5000, 30000⟩, c7api⟩ "https://item") ⟨[]⟩).1
      = .ok ((c7seqV 2).data) ∧
    ((waitForValidStatus (fun hist _ => c7seqV hist.length) testCrypto
        ⟨"https://d", ⟨5, 5000, 30000⟩, c7api⟩ "https://item") ⟨[]⟩).2.log.length
      = 2 + 1 ∧
    ((waitForValidStatus (fun hist _ => c7seqI hist.length) testCrypto
        ⟨"https://d", ⟨5, 5000, 30000⟩, c7api⟩ "https://item") ⟨[]⟩).1
      = .error (.error "dns lookup failed") ∧
    ((waitForValidStatus (fun hist _ => c7seqI hist.length) testCrypto
        ⟨"https://d", ⟨5, 5000, 30000⟩, c7api⟩ "https://item") ⟨[]⟩).2.log.length
      = 1 + 1 ∧
    (∀ (data : Json) (dtl : String),
      (data.get "error").truthy = true →
      (data.get "error").get "detail" = .str dtl → dtl ≠ "" →
      formatResponseError data = some (stripNewlines dtl))) :=
  ⟨by decide, by decide, by decide, by decide, by decide, by decide, by decide,
    by decide,
    c7_theorem c7seqV c7seqI testCrypto c7api "https://d" "https://item" 5 5000 30000
      2 1 "dns lookup failed" (by decide) (by decide) (by decide) (by decide)
      (by decide) (by decide) (by decide) (by decide)⟩

end Nacme
